import Mathlib

/-!
# Best Overlap Graph — verification development

Shallow embedding of the best-overlap-graph core of the canu assembler
(`AS_BAT_BestOverlapGraph.H`).  The value types (`ReadEnd`, `BestEdgeOverlap`),
the packed-width build check, and the query/traversal interface
(`getBestEdgeOverlap`, `followOverlap`, `isContained`, `isSuspicious`,
`setContained`) are translated directly from the header's inline code.
The construction pipeline (scoring, winner retention, statistics, filter
passes) is declared but not defined in the header; those parts are modelled
from the accompanying specification and are marked `Modelled from the spec:`
in their doc comments.

Machine integers are modelled as `Nat`/`Int` with explicit reduction where the
source uses fixed-width bit fields.
-/

/-- Modelled from the spec: configuration constant `AS_MAX_READLEN_BITS`
(referenced by the header's bit-field widths but defined outside the excerpt,
in `AS_global.H`).  We use the stock configuration value 21. -/
def AS_MAX_READLEN_BITS : Nat := 21

/-- Modelled from the spec: configuration constant `AS_MAX_EVALUE_BITS`
(referenced by the header's bit-field widths but defined outside the excerpt).
We use the stock configuration value 12. -/
def AS_MAX_EVALUE_BITS : Nat := 12

/-- Modelled from the spec: the error-code decoder `AS_OVS_decodeEvalue` is
referenced by `BestEdgeOverlap::erate()` but defined outside the excerpt.
The spec requires only a compact monotone encoding of an error rate in [0,1];
we decode an evalue `v` as the rational `v / 2^AS_MAX_EVALUE_BITS`. -/
def AS_OVS_decodeEvalue (v : Nat) : ℚ := (v : ℚ) / (2 ^ AS_MAX_EVALUE_BITS)

/-- Wrap an integer into a signed bit field of width `w` (two's-complement
truncation), the semantics of assigning to a C++ `int64 x : w` bit field.
The result lies in `[-2^(w-1), 2^(w-1))`. -/
def signedFit (w : Nat) (x : Int) : Int :=
  let m : Int := 2 ^ w
  let r := x % m
  if r < 2 ^ (w - 1) then r else r - m

/-- `class ReadEnd`: one end (5' or 3') of one read.  The source stores the
identifier in a 31-bit field (`uint32 _id:31`) and the end bit in a 1-bit
field (`uint32 _e3p:1`). -/
structure ReadEnd where
  _id : Nat
  _e3p : Bool
deriving DecidableEq, Repr

/-- `ReadEnd::ReadEnd()`: the default (sentinel) read end — id 0, 5' end. -/
def ReadEnd.mkDefault : ReadEnd := { _id := 0, _e3p := false }

/-- `ReadEnd::ReadEnd(uint32 id, bool e3p)`: assigning a `uint32` to the
31-bit field `_id` keeps the low 31 bits. -/
def ReadEnd.make (id : Nat) (e3p : Bool) : ReadEnd :=
  { _id := id % 2 ^ 31, _e3p := e3p }

/-- `ReadEnd::readId()`. -/
def ReadEnd.readId (e : ReadEnd) : Nat := e._id

/-- `ReadEnd::read3p()`. -/
def ReadEnd.read3p (e : ReadEnd) : Bool := e._e3p == true

/-- `ReadEnd::read5p()`. -/
def ReadEnd.read5p (e : ReadEnd) : Bool := e._e3p == false

/-- `ReadEnd::operator==`. -/
def ReadEnd.beq (a b : ReadEnd) : Bool :=
  (a.readId == b.readId) && (a.read3p == b.read3p)

/-- Modelled from the spec: the external Overlap Record (`BAToverlap`, defined
in `AS_BAT_OverlapCache.H`, outside the excerpt): implicit source read
`a_iid`, target read `b_iid`, signed hangs relative to the A read, orientation
flag `flipped`, and the compact error code `evalue`. -/
structure BAToverlap where
  a_iid : Nat
  b_iid : Nat
  a_hang : Int
  b_hang : Int
  flipped : Bool
  evalue : Nat
deriving DecidableEq, Repr

/-- Modelled from the spec: a dovetail overlap touches the 5' end of the A
read when the hangs are negative ("a_hang<0 touches the 5' end of A's forward
orientation context"). -/
def BAToverlap.AEndIs5prime (o : BAToverlap) : Bool :=
  decide (o.a_hang < 0) && decide (o.b_hang < 0)

/-- Modelled from the spec: a dovetail overlap touches the 3' end of the A
read when the hangs are positive ("a_hang>0 touches the 3' end"). -/
def BAToverlap.AEndIs3prime (o : BAToverlap) : Bool :=
  decide (0 < o.a_hang) && decide (0 < o.b_hang)

/-- Modelled from the spec: `BAToverlap::BEndIs3prime()` (defined outside the
excerpt) — whether the overlap dovetails into the 3' end of the B read:
touching A's 5' end without a flip, or A's 3' end with a flip, lands on B's
3' end. -/
def BAToverlap.BEndIs3prime (o : BAToverlap) : Bool :=
  (o.AEndIs5prime && !o.flipped) || (o.AEndIs3prime && o.flipped)

/-- `class BestEdgeOverlap`: the packed per-end record of the single retained
overlap.  The source packs `_id` in a `uint32`, `_e3p` in one bit, the hangs
in signed `AS_MAX_READLEN_BITS+1`-bit fields and `_evalue` in
`AS_MAX_EVALUE_BITS` bits. -/
structure BestEdgeOverlap where
  _id : Nat
  _e3p : Bool
  _ahang : Int
  _bhang : Int
  _evalue : Nat
deriving DecidableEq, Repr

/-- `BestEdgeOverlap::clear()`: the zero ("no edge") record. -/
def BestEdgeOverlap.clear : BestEdgeOverlap :=
  { _id := 0, _e3p := false, _ahang := 0, _bhang := 0, _evalue := 0 }

/-- `BestEdgeOverlap::set(BAToverlap const &olap)`: if the hang signs indicate
containment, `_e3p` records the orientation (`olap.flipped`); otherwise it
records whether the overlap is to the 3' end of the B read.  The remaining
fields are assigned into their bit fields. -/
def BestEdgeOverlap.set (olap : BAToverlap) : BestEdgeOverlap :=
  { _id := olap.b_iid % 2 ^ 32
    _e3p := if ((olap.a_hang ≤ 0) ∧ (0 ≤ olap.b_hang)) ∨
               ((0 ≤ olap.a_hang) ∧ (olap.b_hang ≤ 0))
            then olap.flipped
            else olap.BEndIs3prime
    _ahang := signedFit (AS_MAX_READLEN_BITS + 1) olap.a_hang
    _bhang := signedFit (AS_MAX_READLEN_BITS + 1) olap.b_hang
    _evalue := olap.evalue % 2 ^ AS_MAX_EVALUE_BITS }

/-- `BestEdgeOverlap::readId()`. -/
def BestEdgeOverlap.readId (e : BestEdgeOverlap) : Nat := e._id

/-- `BestEdgeOverlap::read3p()`. -/
def BestEdgeOverlap.read3p (e : BestEdgeOverlap) : Bool := e._e3p == true

/-- `BestEdgeOverlap::ahang()`. -/
def BestEdgeOverlap.ahang (e : BestEdgeOverlap) : Int := e._ahang

/-- `BestEdgeOverlap.bhang'` models `BestEdgeOverlap::bhang()`. -/
def BestEdgeOverlap.bhang' (e : BestEdgeOverlap) : Int := e._bhang

/-- `BestEdgeOverlap::evalue()`. -/
def BestEdgeOverlap.evalue (e : BestEdgeOverlap) : Nat := e._evalue

/-- `BestEdgeOverlap::erate()`. -/
def BestEdgeOverlap.erate (e : BestEdgeOverlap) : ℚ := AS_OVS_decodeEvalue e._evalue

/-- The packed width of a `BestEdgeOverlap`'s bit-field word, as computed by
the header's preprocessor check:
`1 + AS_MAX_READLEN_BITS+1 + AS_MAX_READLEN_BITS+1 + AS_MAX_EVALUE_BITS`. -/
def bestEdgeOverlapPackedBits (rb eb : Nat) : Nat :=
  1 + (rb + 1) + (rb + 1) + eb

/-- `class BestOverlaps`: one read's per-read entry — the 5' and 3' best-edge
records and the containment flag (`uint32 _isC` in the source, used as a
boolean). -/
structure BestOverlaps where
  _best5 : BestEdgeOverlap
  _best3 : BestEdgeOverlap
  _isC : Bool
deriving DecidableEq, Repr

/-- Select one end's best-edge record of an entry (the
`(threePrime) ? _best3 : _best5` idiom of the source). -/
def BestOverlaps.sel (b : BestOverlaps) (threePrime : Bool) : BestEdgeOverlap :=
  if threePrime then b._best3 else b._best5

/-- Replace one end's best-edge record of an entry. -/
def BestOverlaps.upd (b : BestOverlaps) (threePrime : Bool) (x : BestEdgeOverlap) :
    BestOverlaps :=
  if threePrime then { b with _best3 := x } else { b with _best5 := x }

/-- The zero-initialized per-read entry. -/
def BestOverlaps.zero : BestOverlaps :=
  { _best5 := BestEdgeOverlap.clear, _best3 := BestEdgeOverlap.clear, _isC := false }

/-- `class BestOverlapGraph` state: per-read storage (`_bestA`/`_bestM`,
modelled as one total map with zero default), the ephemeral score
accumulators (`_scorA`/`_scorM`), the flagged-read sets (`_suspicious`,
`_singleton`, `_spur`, modelled as predicates), and the derived error-rate
ceiling `_errorLimit`. -/
structure BogState where
  best : Nat → BestOverlaps
  score5 : Nat → Nat
  score3 : Nat → Nat
  suspicious : Nat → Bool
  singleton : Nat → Bool
  spur : Nat → Bool
  errorLimit : ℚ

/-- The freshly constructed, zero-initialized graph state. -/
def BogState.zero : BogState :=
  { best := fun _ => BestOverlaps.zero
    score5 := fun _ => 0
    score3 := fun _ => 0
    suspicious := fun _ => false
    singleton := fun _ => false
    spur := fun _ => false
    errorLimit := 0 }

/-- `BestOverlapGraph::getBestEdgeOverlap(uint32 readid, bool threePrime)`:
returns the 3' record when `threePrime`, the 5' record otherwise.  The dense
(`_bestA`) and sparse (`_bestM`) storage modes are modelled by the single
total map `best`. -/
def getBestEdgeOverlap (s : BogState) (readid : Nat) (threePrime : Bool) :
    BestEdgeOverlap :=
  if threePrime then (s.best readid)._best3 else (s.best readid)._best5

/-- `BestOverlapGraph::followOverlap(ReadEnd end)`: sentinel in, sentinel out;
otherwise follow the best edge at the given end and continue from the other
end of the target read. -/
def followOverlap (s : BogState) (e : ReadEnd) : ReadEnd :=
  if e.readId = 0 then ReadEnd.mkDefault
  else
    let edge := getBestEdgeOverlap s e.readId e.read3p
    ReadEnd.make edge.readId (!edge.read3p)

/-- `BestOverlapGraph::setContained(uint32 readid)`. -/
def setContained (s : BogState) (readid : Nat) : BogState :=
  { s with best := fun r => if r = readid then { s.best r with _isC := true } else s.best r }

/-- `BestOverlapGraph::isContained(uint32 readid)`. -/
def isContained (s : BogState) (readid : Nat) : Bool := (s.best readid)._isC

/-- `BestOverlapGraph::isSuspicious(uint32 readid)`:
`_suspicious.count(readid) > 0`. -/
def isSuspicious (s : BogState) (readid : Nat) : Bool := s.suspicious readid

/-- One query request of the public read-only interface. -/
inductive BogQuery where
  | qGetBest (readid : Nat) (threePrime : Bool)
  | qIsContained (readid : Nat)
  | qIsSuspicious (readid : Nat)
deriving DecidableEq, Repr

/-- A query answer. -/
inductive BogQueryResult where
  | rEdge (e : BestEdgeOverlap)
  | rBool (b : Bool)
deriving DecidableEq, Repr

/-- Run one public query against the graph, returning the answer and the
post-call state.  The source bodies of `getBestEdgeOverlap`, `isContained`
and `isSuspicious` contain no writes, so the post-call state is the input
state. -/
def applyQuery (s : BogState) (q : BogQuery) : BogQueryResult × BogState :=
  match q with
  | .qGetBest readid threePrime => (.rEdge (getBestEdgeOverlap s readid threePrime), s)
  | .qIsContained readid => (.rBool (isContained s readid), s)
  | .qIsSuspicious readid => (.rBool (isSuspicious s readid), s)

/-- Modelled from the spec: the construction parameters of
`BestOverlapGraph::BestOverlapGraph` (the error-rate cutoff, the robust
deviation multiplier, and the four filter enabling flags; the reporting
output-prefix string is omitted — reporting is out of scope). -/
structure BogConfig where
  erateGraph : ℚ
  deviationGraph : ℚ
  filterSuspicious : Bool
  filterHighError : Bool
  filterLopsided : Bool
  filterSpur : Bool
deriving DecidableEq, Repr

/-- Modelled from the spec: the implied overlap length seen from the A read
("score increases with implied overlap length") — the aligned span of the A
read, `readLen(a) - max(a_hang,0) + min(b_hang,0)`, clamped at zero.
`readLen` is the external read-length oracle (the `RI` collaborator). -/
def overlapLength (readLen : Nat → Nat) (o : BAToverlap) : Nat :=
  ((readLen o.a_iid : Int) - max o.a_hang 0 + min o.b_hang 0).toNat

/-- Modelled from the spec: `BestOverlapGraph::scoreOverlap` (declared but not
defined in the excerpt).  The score increases with implied overlap length and
decreases with error rate: the length occupies the high bits and the inverted
error code the low bits. -/
def scoreOverlap (readLen : Nat → Nat) (o : BAToverlap) : Nat :=
  overlapLength readLen o * 2 ^ AS_MAX_EVALUE_BITS +
    (2 ^ AS_MAX_EVALUE_BITS - 1 - o.evalue % 2 ^ AS_MAX_EVALUE_BITS)

/-- The containment hang-sign test of §3, exactly the condition used by
`BestEdgeOverlap::set`. -/
def isContainmentOlap (o : BAToverlap) : Prop :=
  ((o.a_hang ≤ 0) ∧ (0 ≤ o.b_hang)) ∨ ((0 ≤ o.a_hang) ∧ (o.b_hang ≤ 0))

instance (o : BAToverlap) : Decidable (isContainmentOlap o) := by
  unfold isContainmentOlap; infer_instance

/-- Modelled from the spec: the deterministic tie-break order on retained
edge records — "ties broken deterministically by preferring the lower error
rate, then by the lower target read identifier (any total order is acceptable
as long as it is applied consistently)".  We extend the order to the
remaining stored fields so that it is total up to record equality. -/
def edgeLt (a b : BestEdgeOverlap) : Prop :=
  a._evalue < b._evalue ∨ (a._evalue = b._evalue ∧
  (a._id < b._id ∨ (a._id = b._id ∧
  ((a._e3p = false ∧ b._e3p = true) ∨ (a._e3p = b._e3p ∧
  (a._ahang < b._ahang ∨ (a._ahang = b._ahang ∧ a._bhang < b._bhang)))))))

instance (a b : BestEdgeOverlap) : Decidable (edgeLt a b) := by
  unfold edgeLt; infer_instance

/-- Modelled from the spec: the winner-retention rule — a candidate replaces
the current winner when its score strictly exceeds the retained score, or on
a score tie when it precedes the retained record in the tie-break order. -/
def betterCand (candEdge : BestEdgeOverlap) (candScore : Nat)
    (curEdge : BestEdgeOverlap) (curScore : Nat) : Prop :=
  curScore < candScore ∨ (candScore = curScore ∧ edgeLt candEdge curEdge)

instance (a b c d) : Decidable (betterCand a b c d) := by
  unfold betterCand; infer_instance

/-- The retained edge of the graph state at one read end. -/
def BogState.edgeAt (s : BogState) (r : Nat) (threePrime : Bool) : BestEdgeOverlap :=
  (s.best r).sel threePrime

/-- The retained score accumulator at one read end (`best5score`/`best3score`). -/
def BogState.scoreAt (s : BogState) (r : Nat) (threePrime : Bool) : Nat :=
  if threePrime then s.score3 r else s.score5 r

/-- Overwrite the best edge and score of one read end, leaving everything else
(including the entry's containment flag) unchanged. -/
def BogState.setSlot (s : BogState) (r : Nat) (threePrime : Bool)
    (x : BestEdgeOverlap) (sc : Nat) : BogState :=
  { s with
    best := fun i => if i = r then (s.best i).upd threePrime x else s.best i
    score5 := fun i => if i = r ∧ threePrime = false then sc else s.score5 i
    score3 := fun i => if i = r ∧ threePrime = true then sc else s.score3 i }

/-- The elementary winner-retention step on one slot: replace the slot's
record and score when the candidate beats the current winner. -/
def slotStep (s : BogState) (r : Nat) (tp : Bool) (c : BestEdgeOverlap) (n : Nat) :
    BogState :=
  if betterCand c n (s.edgeAt r tp) (s.scoreAt r tp) then s.setSlot r tp c n else s

/-- Modelled from the spec: `BestOverlapGraph::scoreEdge` — classify which end
of the A read a dovetail overlap touches from the hang signs and retain it as
that end's winner when it beats the current winner. -/
def scoreEdge (readLen : Nat → Nat) (s : BogState) (o : BAToverlap) : BogState :=
  let e3 : Bool := decide (0 < o.a_hang)
  let sc := scoreOverlap readLen o
  let cand := BestEdgeOverlap.set o
  if betterCand cand sc (s.edgeAt o.a_iid e3) (s.scoreAt o.a_iid e3) then
    s.setSlot o.a_iid e3 cand sc
  else s

/-- Modelled from the spec: `BestOverlapGraph::scoreContainment` — when the
hang signs say the A read is contained in the B read, the contained read's
containment flag is set; containment does not compete for the dovetail edge
slots. -/
def scoreContainment (s : BogState) (o : BAToverlap) : BogState :=
  if (o.a_hang ≤ 0) ∧ (0 ≤ o.b_hang) then setContained s o.a_iid else s

/-- Modelled from the spec: processing of one incoming overlap record during
the scoring pass — containment records feed `scoreContainment`, dovetail
records feed `scoreEdge`. -/
def scoreOverlapStep (readLen : Nat → Nat) (s : BogState) (o : BAToverlap) : BogState :=
  if isContainmentOlap o then scoreContainment s o else scoreEdge readLen s o

/-- Modelled from the spec: `BestOverlapGraph::findEdges` — stream the
overlaps through the scorer, retaining per-end winners. -/
def findEdges (readLen : Nat → Nat) (ovls : List BAToverlap) (s : BogState) : BogState :=
  ovls.foldl (scoreOverlapStep readLen) s

/-- The lower median of a list of rationals (0 for the empty list). -/
def medianOf (l : List ℚ) : ℚ :=
  (l.insertionSort (· ≤ ·)).getD (l.length / 2) 0

/-- The error rates of the currently retained best edges over the read
universe `1..numReads`, both ends, zero edges excluded. -/
def retainedErates (numReads : Nat) (s : BogState) : List ℚ :=
  ((List.range (numReads + 1)).filterMap fun r =>
    if s.edgeAt r false ≠ BestEdgeOverlap.clear then some (s.edgeAt r false).erate else none) ++
  ((List.range (numReads + 1)).filterMap fun r =>
    if s.edgeAt r true ≠ BestEdgeOverlap.clear then some (s.edgeAt r true).erate else none)

/-- Modelled from the spec: the statistics pass (§4.2) — derive the
error-rate ceiling from the robust statistics (median plus `deviationGraph`
times the median absolute deviation) of the retained best-edge error rates;
with 0 or 1 retained edges the ceiling defaults to the sentinel 1 ("no
filtering possible").  Only the statistics fields are written. -/
def computeStats (cfg : BogConfig) (numReads : Nat) (s : BogState) : BogState :=
  let er := retainedErates numReads s
  if er.length ≤ 1 then { s with errorLimit := 1 }
  else
    let m := medianOf er
    { s with errorLimit := m + cfg.deviationGraph * medianOf (er.map fun x => |x - m|) }

/-- Modelled from the spec: the bad-edge test of §4.3 — the error rate
exceeds the derived ceiling or exceeds the configured absolute cutoff. -/
def edgeTooErroneous (limit cutoff : ℚ) (e : BestEdgeOverlap) : Prop :=
  limit < e.erate ∨ cutoff < e.erate

instance (l c e) : Decidable (edgeTooErroneous l c e) := by
  unfold edgeTooErroneous; infer_instance

/-- Clear one edge when it is too erroneous, keep it otherwise. -/
def heClear (limit cutoff : ℚ) (e : BestEdgeOverlap) : BestEdgeOverlap :=
  if edgeTooErroneous limit cutoff e then BestEdgeOverlap.clear else e

/-- Whether an entry retains at least one edge. -/
def BestOverlaps.hasEdge (b : BestOverlaps) : Prop :=
  b._best5 ≠ BestEdgeOverlap.clear ∨ b._best3 ≠ BestEdgeOverlap.clear

instance (b : BestOverlaps) : Decidable b.hasEdge := by
  unfold BestOverlaps.hasEdge; infer_instance

/-- Modelled from the spec: `BestOverlapGraph::removeHighErrorBestEdges`
(§4.3) — clear every retained best edge whose error rate exceeds the derived
ceiling or the absolute cutoff; a read whose last retained edge disappears in
this pass is recorded in the singleton set. -/
def removeHighErrorPass (cfg : BogConfig) (s : BogState) : BogState :=
  if cfg.filterHighError = false then s
  else
    { s with
      best := fun r =>
        { _best5 := heClear s.errorLimit cfg.erateGraph (s.best r)._best5
          _best3 := heClear s.errorLimit cfg.erateGraph (s.best r)._best3
          _isC := (s.best r)._isC }
      singleton := fun r =>
        s.singleton r ||
          decide ((s.best r).hasEdge ∧
            heClear s.errorLimit cfg.erateGraph (s.best r)._best5 = BestEdgeOverlap.clear ∧
            heClear s.errorLimit cfg.erateGraph (s.best r)._best3 = BestEdgeOverlap.clear) }

/-- Modelled from the spec: `BestOverlapGraph::removeContainedDovetails`
(§4.4) — a read marked contained stops serving as a dovetail partner: both of
its dovetail best edges are cleared; the containment flag itself is never
changed. -/
def removeContainedDovetailsPass (s : BogState) : BogState :=
  { s with
    best := fun r =>
      if (s.best r)._isC then
        { _best5 := BestEdgeOverlap.clear, _best3 := BestEdgeOverlap.clear, _isC := true }
      else s.best r }

/-- Modelled from the spec: `BestOverlapGraph::removeLopsidedEdges` (§4.5) —
when one end's committed score exceeds twice the other end's, the
weaker-scoring end's edge is cleared. -/
def removeLopsidedPass (cfg : BogConfig) (s : BogState) : BogState :=
  if cfg.filterLopsided = false then s
  else
    { s with
      best := fun r =>
        { _best5 := if 2 * s.score5 r < s.score3 r then BestEdgeOverlap.clear
                    else (s.best r)._best5
          _best3 := if 2 * s.score3 r < s.score5 r then BestEdgeOverlap.clear
                    else (s.best r)._best3
          _isC := (s.best r)._isC } }

/-- A spur: a read with a retained best edge on exactly one of its ends. -/
def isSpurEntry (b : BestOverlaps) : Prop :=
  (b._best5 = BestEdgeOverlap.clear ∧ b._best3 ≠ BestEdgeOverlap.clear) ∨
  (b._best5 ≠ BestEdgeOverlap.clear ∧ b._best3 = BestEdgeOverlap.clear)

instance (b : BestOverlaps) : Decidable (isSpurEntry b) := by
  unfold isSpurEntry; infer_instance

/-- Modelled from the spec: `BestOverlapGraph::removeSpurs` (§4.6) — a read
with an edge on only one end is recorded in the spur set and its remaining
edge is cleared, so spurs cannot seed path walks. -/
def removeSpursPass (cfg : BogConfig) (s : BogState) : BogState :=
  if cfg.filterSpur = false then s
  else
    { s with
      best := fun r =>
        if isSpurEntry (s.best r) then
          { _best5 := BestEdgeOverlap.clear, _best3 := BestEdgeOverlap.clear
            _isC := (s.best r)._isC }
        else s.best r
      spur := fun r => s.spur r || decide (isSpurEntry (s.best r)) }

/-- Whether a read's retained edges are mutually inconsistent: some end's
best edge points to a target whose best edge at the corresponding end does
not point back. -/
def suspiciousEntry (s : BogState) (r : Nat) : Prop :=
  (s.edgeAt r false ≠ BestEdgeOverlap.clear ∧
     (s.edgeAt (s.edgeAt r false)._id (s.edgeAt r false)._e3p)._id ≠ r) ∨
  (s.edgeAt r true ≠ BestEdgeOverlap.clear ∧
     (s.edgeAt (s.edgeAt r true)._id (s.edgeAt r true)._e3p)._id ≠ r)

instance (s : BogState) (r : Nat) : Decidable (suspiciousEntry s r) := by
  unfold suspiciousEntry; infer_instance

/-- Modelled from the spec: `BestOverlapGraph::removeSuspicious` (§4.6) —
reads with mutually inconsistent retained edges are only flagged, never
edited. -/
def removeSuspiciousPass (cfg : BogConfig) (s : BogState) : BogState :=
  if cfg.filterSuspicious = false then s
  else { s with suspicious := fun r => s.suspicious r || decide (suspiciousEntry s r) }

/-- Modelled from the spec: the fixed filter-pass sequence of §5 —
high-error, contained-dovetail, lopsided, spur, suspicious. -/
def filterSeq (cfg : BogConfig) (s : BogState) : BogState :=
  removeSuspiciousPass cfg
    (removeSpursPass cfg
      (removeLopsidedPass cfg
        (removeContainedDovetailsPass
          (removeHighErrorPass cfg s))))

/-- Modelled from the spec: `BestOverlapGraph::BestOverlapGraph` — the
sequential multi-pass construction: score all overlaps and retain per-end
winners, compute the global statistics, then run the filter passes. -/
def buildGraph (cfg : BogConfig) (numReads : Nat) (readLen : Nat → Nat)
    (ovls : List BAToverlap) : BogState :=
  filterSeq cfg (computeStats cfg numReads (findEdges readLen ovls BogState.zero))

/-- A fatal configuration error. -/
inductive BogConfigError where
  | packedWidthOverflow
deriving DecidableEq, Repr

/-- The guarded builder: the packed-width invariant of the header's
preprocessor check (`#if 1 + AS_MAX_READLEN_BITS+1 + AS_MAX_READLEN_BITS+1 +
AS_MAX_EVALUE_BITS > 64 → #error`) rejects an oversized configuration fatally
before any overlap is processed. -/
def checkedBuildGraph (rb eb : Nat) (cfg : BogConfig) (numReads : Nat)
    (readLen : Nat → Nat) (ovls : List BAToverlap) :
    Except BogConfigError BogState :=
  if 64 < bestEdgeOverlapPackedBits rb eb then .error .packedWidthOverflow
  else .ok (buildGraph cfg numReads readLen ovls)

/-- A concrete dovetail overlap: read 1 extends into read 2, forward
orientation, error code 3000. -/
def exOlapAB : BAToverlap :=
  { a_iid := 1, b_iid := 2, a_hang := 5, b_hang := 7, flipped := false, evalue := 3000 }

/-- The symmetric record of `exOlapAB`, as the B read sees it. -/
def exOlapBA : BAToverlap :=
  { a_iid := 2, b_iid := 1, a_hang := -5, b_hang := -7, flipped := false, evalue := 3000 }

/-- A concrete containment overlap: read 3 is contained in read 4. -/
def exOlapContained : BAToverlap :=
  { a_iid := 3, b_iid := 4, a_hang := 0, b_hang := 0, flipped := true, evalue := 100 }

/-- A constant read-length oracle for the concrete examples. -/
def exReadLen : Nat → Nat := fun _ => 100

/-- A configuration with every filter disabled and a small error cutoff. -/
def exCfgOff : BogConfig :=
  { erateGraph := 1 / 20, deviationGraph := 6
    filterSuspicious := false, filterHighError := false
    filterLopsided := false, filterSpur := false }

/-- A configuration with only the high-error filter enabled. -/
def exCfgHE : BogConfig :=
  { exCfgOff with filterHighError := true }

/-- A concrete graph built from the single overlap `exOlapAB` with all
filters disabled. -/
def exGraph : BogState := buildGraph exCfgOff 4 exReadLen [exOlapAB]

/-- A concrete graph built from two overlaps, used by the order-independence
witness. -/
def exGraph2 : BogState := buildGraph exCfgOff 4 exReadLen [exOlapAB, exOlapContained]

/-- The same overlaps delivered in the opposite order. -/
def exGraph2rev : BogState := buildGraph exCfgOff 4 exReadLen [exOlapContained, exOlapAB]

/-- Truncation into a signed bit field of width `w` is the identity on values
that fit in the field. -/
theorem signedFit_eq_self (w : Nat) (hw : 1 ≤ w) (x : Int)
    (h1 : -(2 ^ (w - 1)) ≤ x) (h2 : x < 2 ^ (w - 1)) : signedFit w x = x := by
  have hm : (2 : Int) ^ w = 2 ^ (w - 1) * 2 := by
    rw [← pow_succ]
    congr 1
    omega
  have hapos : (0 : Int) < 2 ^ (w - 1) := by positivity
  unfold signedFit
  simp only [hm]
  rcases le_or_lt 0 x with hx | hx
  · have hmod : x % (2 ^ (w - 1) * 2) = x := Int.emod_eq_of_lt hx (by omega)
    rw [hmod, if_pos h2]
  · have hmod : x % (2 ^ (w - 1) * 2) = x + 2 ^ (w - 1) * 2 := by
      have h3 : (x + 2 ^ (w - 1) * 2) % (2 ^ (w - 1) * 2) = x + 2 ^ (w - 1) * 2 :=
        Int.emod_eq_of_lt (by omega) (by omega)
      calc x % (2 ^ (w - 1) * 2)
          = (x + 2 ^ (w - 1) * 2 * 1) % (2 ^ (w - 1) * 2) :=
            (Int.add_mul_emod_self_left x (2 ^ (w - 1) * 2) 1).symm
        _ = x + 2 ^ (w - 1) * 2 := by rw [mul_one, h3]
    rw [hmod, if_neg (by omega)]
    omega

/-- C9: `ReadEnd(id, e3p)` stores the identifier in a 31-bit field: below
`2^31` the identifier and end bit read back unchanged; at or above `2^31` the
stored identifier is reduced modulo `2^31`. -/
theorem claim_C9 (id : Nat) (e3p : Bool) :
    (id < 2 ^ 31 → (ReadEnd.make id e3p).readId = id) ∧
    (2 ^ 31 ≤ id → (ReadEnd.make id e3p).readId = id % 2 ^ 31) ∧
    (ReadEnd.make id e3p).read3p = e3p := by
  refine ⟨fun h => ?_, fun _ => rfl, ?_⟩
  · exact Nat.mod_eq_of_lt h
  · cases e3p <;> rfl

/-- Witness for C9 at identifiers 5 and `2^31 + 7`. -/
theorem claim_C9_witness :
    (ReadEnd.make 5 true).readId = 5 ∧ (ReadEnd.make 5 true).read3p = true ∧
    (ReadEnd.make (2 ^ 31 + 7) false).readId = (2 ^ 31 + 7) % 2 ^ 31 := by
  exact ⟨(claim_C9 5 true).1 (by norm_num), (claim_C9 5 true).2.2,
    (claim_C9 (2 ^ 31 + 7) false).2.1 (by norm_num)⟩

/-- C1: `followOverlap` returns the sentinel end immediately on the sentinel
read id 0; otherwise it returns the read end whose identifier is the target
identifier of the best edge retained at `(e.readId(), e.read3p())` and whose
3'-end bit is the negation of that edge's stored end bit. -/
theorem claim_C1 (s : BogState) (e : ReadEnd) :
    (e.readId = 0 → followOverlap s e = ReadEnd.mkDefault) ∧
    (e.readId ≠ 0 →
      (getBestEdgeOverlap s e.readId e.read3p)._id < 2 ^ 31 →
      (followOverlap s e).readId = (getBestEdgeOverlap s e.readId e.read3p).readId ∧
      (followOverlap s e).read3p = !(getBestEdgeOverlap s e.readId e.read3p).read3p) := by
  constructor
  · intro h
    simp [followOverlap, h]
  · intro h hlt
    have hfo : followOverlap s e =
        ReadEnd.make (getBestEdgeOverlap s e.readId e.read3p).readId
          (!(getBestEdgeOverlap s e.readId e.read3p).read3p) := by
      simp [followOverlap, h]
    rw [hfo]
    refine ⟨(claim_C9 _ _).1 hlt, (claim_C9 _ _).2.2⟩

/-- Witness for C1 on the concrete graph `exGraph` at the 3' end of read 1. -/
theorem claim_C1_witness :
    (ReadEnd.make 1 true).readId ≠ 0 ∧
    (getBestEdgeOverlap exGraph (ReadEnd.make 1 true).readId
      (ReadEnd.make 1 true).read3p)._id < 2 ^ 31 ∧
    (followOverlap exGraph (ReadEnd.make 1 true)).readId =
      (getBestEdgeOverlap exGraph (ReadEnd.make 1 true).readId
        (ReadEnd.make 1 true).read3p).readId := by
  refine ⟨by decide, by decide, ?_⟩
  exact ((claim_C1 exGraph (ReadEnd.make 1 true)).2 (by decide) (by decide)).1

/-- C10: at a nonzero read end whose retained best edge is the cleared edge,
`followOverlap` returns the terminal end (0, 3'); one further step yields the
sentinel, but the terminal end is not `operator==`-equal to the default
sentinel, whose 3'-end bit is false. -/
theorem claim_C10 (s : BogState) (e : ReadEnd) (h0 : e.readId ≠ 0)
    (hc : getBestEdgeOverlap s e.readId e.read3p = BestEdgeOverlap.clear) :
    followOverlap s e = ReadEnd.make 0 true ∧
    followOverlap s (followOverlap s e) = ReadEnd.mkDefault ∧
    (followOverlap s e).beq ReadEnd.mkDefault = false := by
  have h1 : followOverlap s e = ReadEnd.make 0 true := by
    simp [followOverlap, h0, hc]
    rfl
  refine ⟨h1, ?_, by rw [h1]; rfl⟩
  rw [h1]
  rfl

/-- Witness for C10 on the concrete graph `exGraph` at read 2, which retains
no 5' edge. -/
theorem claim_C10_witness :
    (ReadEnd.make 2 false).readId ≠ 0 ∧
    getBestEdgeOverlap exGraph (ReadEnd.make 2 false).readId
      (ReadEnd.make 2 false).read3p = BestEdgeOverlap.clear ∧
    followOverlap exGraph (ReadEnd.make 2 false) = ReadEnd.make 0 true ∧
    (followOverlap exGraph (ReadEnd.make 2 false)).beq ReadEnd.mkDefault = false := by
  refine ⟨by decide, by decide, ?_, ?_⟩
  · exact (claim_C10 exGraph (ReadEnd.make 2 false) (by decide) (by decide)).1
  · exact (claim_C10 exGraph (ReadEnd.make 2 false) (by decide) (by decide)).2.2

/-- C8: the public queries are read-only — the post-call state of any query
agrees with the input state on every per-read entry, every flag set and the
statistics, and each query's answer is the corresponding pure projection. -/
theorem claim_C8 (s : BogState) (q : BogQuery) (r : Nat) :
    ((applyQuery s q).2.best r = s.best r) ∧
    ((applyQuery s q).2.suspicious r = s.suspicious r) ∧
    ((applyQuery s q).2.singleton r = s.singleton r) ∧
    ((applyQuery s q).2.spur r = s.spur r) ∧
    ((applyQuery s q).2.score5 r = s.score5 r) ∧
    ((applyQuery s q).2.score3 r = s.score3 r) ∧
    ((applyQuery s q).2.errorLimit = s.errorLimit) ∧
    (∀ readid tp, applyQuery s (.qGetBest readid tp) =
      (.rEdge (getBestEdgeOverlap s readid tp), s)) ∧
    (∀ readid, applyQuery s (.qIsContained readid) = (.rBool (isContained s readid), s)) ∧
    (∀ readid, applyQuery s (.qIsSuspicious readid) = (.rBool (isSuspicious s readid), s)) := by
  cases q <;> simp [applyQuery]

/-- C2: `BestEdgeOverlap::set` — on containment hang signs the stored end bit
is the overlap's orientation flag; otherwise it is whether the overlap
dovetails into the 3' end of the B read; the target identifier, hangs and
error code are stored unchanged (they fit their bit fields: the identifier is
a `uint32`, the hangs are bounded by the maximum read length and the error
code by its bit budget). -/
theorem claim_C2 (olap : BAToverlap)
    (hid : olap.b_iid < 2 ^ 32)
    (ha1 : -(2 ^ AS_MAX_READLEN_BITS) ≤ olap.a_hang)
    (ha2 : olap.a_hang < 2 ^ AS_MAX_READLEN_BITS)
    (hb1 : -(2 ^ AS_MAX_READLEN_BITS) ≤ olap.b_hang)
    (hb2 : olap.b_hang < 2 ^ AS_MAX_READLEN_BITS)
    (hev : olap.evalue < 2 ^ AS_MAX_EVALUE_BITS) :
    (isContainmentOlap olap → (BestEdgeOverlap.set olap)._e3p = olap.flipped) ∧
    (¬ isContainmentOlap olap → (BestEdgeOverlap.set olap)._e3p = olap.BEndIs3prime) ∧
    (BestEdgeOverlap.set olap)._id = olap.b_iid ∧
    (BestEdgeOverlap.set olap)._ahang = olap.a_hang ∧
    (BestEdgeOverlap.set olap)._bhang = olap.b_hang ∧
    (BestEdgeOverlap.set olap)._evalue = olap.evalue := by
  have hw : AS_MAX_READLEN_BITS + 1 - 1 = AS_MAX_READLEN_BITS := rfl
  refine ⟨fun h => ?_, fun h => ?_, Nat.mod_eq_of_lt hid, ?_, ?_, Nat.mod_eq_of_lt hev⟩
  · simp only [BestEdgeOverlap.set]
    exact if_pos h
  · simp only [BestEdgeOverlap.set]
    exact if_neg h
  · simpa only [BestEdgeOverlap.set, hw] using
      signedFit_eq_self (AS_MAX_READLEN_BITS + 1) (by omega) olap.a_hang
        (by rw [hw]; exact ha1) (by rw [hw]; exact ha2)
  · simpa only [BestEdgeOverlap.set, hw] using
      signedFit_eq_self (AS_MAX_READLEN_BITS + 1) (by omega) olap.b_hang
        (by rw [hw]; exact hb1) (by rw [hw]; exact hb2)

/-- Witness for C2 on the concrete dovetail `exOlapAB` and containment
`exOlapContained`. -/
theorem claim_C2_witness :
    (¬ isContainmentOlap exOlapAB ∧
      (BestEdgeOverlap.set exOlapAB)._e3p = exOlapAB.BEndIs3prime ∧
      (BestEdgeOverlap.set exOlapAB)._ahang = exOlapAB.a_hang) ∧
    (isContainmentOlap exOlapContained ∧
      (BestEdgeOverlap.set exOlapContained)._e3p = exOlapContained.flipped) := by
  have h1 := claim_C2 exOlapAB (by decide) (by decide) (by decide) (by decide)
    (by decide) (by decide)
  have h2 := claim_C2 exOlapContained (by decide) (by decide) (by decide) (by decide)
    (by decide) (by decide)
  exact ⟨⟨by decide, h1.2.1 (by decide), h1.2.2.2.1⟩, ⟨by decide, h2.1 (by decide)⟩⟩

/-- C6: the packed width `1 + (AS_MAX_READLEN_BITS+1) + (AS_MAX_READLEN_BITS+1)
+ AS_MAX_EVALUE_BITS` must not exceed the 64-bit storage word: an oversized
configuration is rejected fatally before any overlap is processed (the error
is independent of the overlap input), and a fitting configuration always
builds. -/
theorem claim_C6 (rb eb : Nat) (cfg : BogConfig) (numReads : Nat) (readLen : Nat → Nat) :
    (64 < bestEdgeOverlapPackedBits rb eb →
      ∀ ovls, checkedBuildGraph rb eb cfg numReads readLen ovls =
        .error .packedWidthOverflow) ∧
    (bestEdgeOverlapPackedBits rb eb ≤ 64 →
      ∀ ovls, checkedBuildGraph rb eb cfg numReads readLen ovls =
        .ok (buildGraph cfg numReads readLen ovls)) := by
  constructor
  · intro h ovls
    simp [checkedBuildGraph, h]
  · intro h ovls
    simp [checkedBuildGraph, Nat.not_lt.mpr h]

/-- Witness for C6: the configuration (31, 12) overflows (width 77) and is
rejected on any input; the stock configuration (21, 12) has width 57 and
builds. -/
theorem claim_C6_witness :
    checkedBuildGraph 31 12 exCfgOff 4 exReadLen [exOlapAB] =
      .error .packedWidthOverflow ∧
    checkedBuildGraph 21 12 exCfgOff 4 exReadLen [exOlapAB] =
      .ok (buildGraph exCfgOff 4 exReadLen [exOlapAB]) := by
  exact ⟨(claim_C6 31 12 exCfgOff 4 exReadLen).1 (by norm_num [bestEdgeOverlapPackedBits])
      [exOlapAB],
    (claim_C6 21 12 exCfgOff 4 exReadLen).2 (by norm_num [bestEdgeOverlapPackedBits])
      [exOlapAB]⟩

/-- Pointwise description of the graph state suffices for equality. -/
theorem BogState.ext' {a b : BogState}
    (h1 : ∀ r, a.best r = b.best r) (h2 : ∀ r, a.score5 r = b.score5 r)
    (h3 : ∀ r, a.score3 r = b.score3 r) (h4 : ∀ r, a.suspicious r = b.suspicious r)
    (h5 : ∀ r, a.singleton r = b.singleton r) (h6 : ∀ r, a.spur r = b.spur r)
    (h7 : a.errorLimit = b.errorLimit) : a = b := by
  cases a
  cases b
  simp only [BogState.mk.injEq]
  exact ⟨funext h1, funext h2, funext h3, funext h4, funext h5, funext h6, h7⟩

/-- The tie-break order is asymmetric. -/
theorem edgeLt_asymm {a b : BestEdgeOverlap} (h : edgeLt a b) : ¬ edgeLt b a := by
  obtain ⟨i1, e1, x1, y1, v1⟩ := a
  obtain ⟨i2, e2, x2, y2, v2⟩ := b
  intro h2
  simp only [edgeLt] at h h2
  cases e1 <;> cases e2 <;> simp_all <;> omega

/-- The tie-break order is transitive. -/
theorem edgeLt_trans {a b c : BestEdgeOverlap} (h1 : edgeLt a b) (h2 : edgeLt b c) :
    edgeLt a c := by
  obtain ⟨i1, e1, x1, y1, v1⟩ := a
  obtain ⟨i2, e2, x2, y2, v2⟩ := b
  obtain ⟨i3, e3, x3, y3, v3⟩ := c
  simp only [edgeLt] at h1 h2 ⊢
  cases e1 <;> cases e2 <;> cases e3 <;> simp_all <;> omega

/-- The tie-break order is total up to record equality. -/
theorem edgeLt_total {a b : BestEdgeOverlap} (h1 : ¬ edgeLt a b) (h2 : ¬ edgeLt b a) :
    a = b := by
  obtain ⟨i1, e1, x1, y1, v1⟩ := a
  obtain ⟨i2, e2, x2, y2, v2⟩ := b
  simp only [edgeLt] at h1 h2
  simp only [BestEdgeOverlap.mk.injEq]
  cases e1 <;> cases e2 <;> simp_all <;> omega

/-- The winner-retention preference is asymmetric. -/
theorem betterCand_asymm {c1 c2 : BestEdgeOverlap} {s1 s2 : Nat}
    (h : betterCand c1 s1 c2 s2) : ¬ betterCand c2 s2 c1 s1 := by
  intro h2
  unfold betterCand at h h2
  rcases h with h | ⟨he, hl⟩ <;> rcases h2 with h2 | ⟨he2, hl2⟩
  · omega
  · omega
  · omega
  · exact edgeLt_asymm hl hl2

/-- The winner-retention preference is transitive. -/
theorem betterCand_trans {c1 c2 c3 : BestEdgeOverlap} {s1 s2 s3 : Nat}
    (h1 : betterCand c1 s1 c2 s2) (h2 : betterCand c2 s2 c3 s3) :
    betterCand c1 s1 c3 s3 := by
  unfold betterCand at h1 h2 ⊢
  rcases h1 with h1 | ⟨he1, hl1⟩ <;> rcases h2 with h2 | ⟨he2, hl2⟩
  · exact Or.inl (by omega)
  · exact Or.inl (by omega)
  · exact Or.inl (by omega)
  · exact Or.inr ⟨by omega, edgeLt_trans hl1 hl2⟩

/-- The winner-retention preference is total up to candidate equality. -/
theorem betterCand_total {c1 c2 : BestEdgeOverlap} {s1 s2 : Nat}
    (h1 : ¬ betterCand c1 s1 c2 s2) (h2 : ¬ betterCand c2 s2 c1 s1) :
    c1 = c2 ∧ s1 = s2 := by
  unfold betterCand at h1 h2
  push_neg at h1 h2
  have hs : s1 = s2 := by omega
  exact ⟨edgeLt_total (fun hl => (h1.2 hs) hl) (fun hl => (h2.2 hs.symm) hl), hs⟩

/-- Selection after update on an entry. -/
theorem BestOverlaps.sel_upd (b : BestOverlaps) (tp tp' : Bool) (x : BestEdgeOverlap) :
    (b.upd tp x).sel tp' = if tp' = tp then x else b.sel tp' := by
  cases tp <;> cases tp' <;> rfl

/-- Updating an entry keeps its containment flag. -/
theorem BestOverlaps.isC_upd (b : BestOverlaps) (tp : Bool) (x : BestEdgeOverlap) :
    (b.upd tp x)._isC = b._isC := by
  cases tp <;> rfl

/-- Updates of the two distinct ends of an entry commute. -/
theorem BestOverlaps.upd_upd_diff (b : BestOverlaps) (tp tp' : Bool) (h : tp ≠ tp')
    (x y : BestEdgeOverlap) : (b.upd tp x).upd tp' y = (b.upd tp' y).upd tp x := by
  cases tp <;> cases tp' <;> simp_all [BestOverlaps.upd]

/-- An update of one end overwrites a previous update of the same end. -/
theorem BestOverlaps.upd_upd_same (b : BestOverlaps) (tp : Bool)
    (x y : BestEdgeOverlap) : (b.upd tp x).upd tp y = b.upd tp y := by
  cases tp <;> rfl

/-- The retained edge after a slot write. -/
theorem BogState.edgeAt_setSlot (s : BogState) (r : Nat) (tp : Bool)
    (x : BestEdgeOverlap) (sc : Nat) (r' : Nat) (tp' : Bool) :
    (s.setSlot r tp x sc).edgeAt r' tp' =
      if r' = r ∧ tp' = tp then x else s.edgeAt r' tp' := by
  simp only [BogState.setSlot, BogState.edgeAt]
  by_cases hr : r' = r
  · simp only [hr, if_pos rfl]
    by_cases ht : tp' = tp <;> simp [ht, BestOverlaps.sel_upd]
  · simp [hr]

/-- The retained score after a slot write. -/
theorem BogState.scoreAt_setSlot (s : BogState) (r : Nat) (tp : Bool)
    (x : BestEdgeOverlap) (sc : Nat) (r' : Nat) (tp' : Bool) :
    (s.setSlot r tp x sc).scoreAt r' tp' =
      if r' = r ∧ tp' = tp then sc else s.scoreAt r' tp' := by
  simp only [BogState.setSlot, BogState.scoreAt]
  cases tp <;> cases tp' <;> by_cases hr : r' = r <;> simp [hr]

/-- A slot write keeps every containment flag. -/
theorem BogState.isC_setSlot (s : BogState) (r : Nat) (tp : Bool)
    (x : BestEdgeOverlap) (sc : Nat) (i : Nat) :
    ((s.setSlot r tp x sc).best i)._isC = (s.best i)._isC := by
  simp only [BogState.setSlot]
  by_cases hr : i = r <;> simp [hr, BestOverlaps.isC_upd]

/-- `scoreEdge` is the elementary slot step at the touched end of the A read. -/
theorem scoreEdge_eq_slotStep (rl : Nat → Nat) (s : BogState) (o : BAToverlap) :
    scoreEdge rl s o =
      slotStep s o.a_iid (decide (0 < o.a_hang)) (BestEdgeOverlap.set o)
        (scoreOverlap rl o) := rfl

/-- Writing the same slot twice keeps only the second write. -/
theorem BogState.setSlot_setSlot_same (s : BogState) (r : Nat) (tp : Bool)
    (x : BestEdgeOverlap) (sc : Nat) (y : BestEdgeOverlap) (sc' : Nat) :
    (s.setSlot r tp x sc).setSlot r tp y sc' = s.setSlot r tp y sc' := by
  refine BogState.ext' ?_ ?_ ?_ (fun _ => rfl) (fun _ => rfl) (fun _ => rfl) rfl <;>
    intro i <;> simp only [BogState.setSlot]
  · by_cases hi : i = r <;> simp [hi, BestOverlaps.upd_upd_same]
  · split_ifs <;> rfl
  · split_ifs <;> rfl

/-- Writes to distinct slots commute. -/
theorem BogState.setSlot_comm_diff (s : BogState) (r1 : Nat) (tp1 : Bool)
    (x1 : BestEdgeOverlap) (n1 : Nat) (r2 : Nat) (tp2 : Bool)
    (x2 : BestEdgeOverlap) (n2 : Nat) (h : ¬(r1 = r2 ∧ tp1 = tp2)) :
    (s.setSlot r1 tp1 x1 n1).setSlot r2 tp2 x2 n2 =
      (s.setSlot r2 tp2 x2 n2).setSlot r1 tp1 x1 n1 := by
  refine BogState.ext' ?_ ?_ ?_ (fun _ => rfl) (fun _ => rfl) (fun _ => rfl) rfl <;>
    intro i <;> simp only [BogState.setSlot]
  · by_cases h1 : i = r1 <;> by_cases h2 : i = r2
    · subst h1
      subst h2
      have ht : tp1 ≠ tp2 := fun hh => h ⟨rfl, hh⟩
      rw [if_pos rfl, if_pos rfl, if_pos rfl, if_pos rfl]
      exact BestOverlaps.upd_upd_diff _ _ _ ht _ _
    · have hne : r1 ≠ r2 := fun hh => h2 (h1.trans hh)
      simp [h1, h2, hne]
    · have hne : r2 ≠ r1 := fun hh => h1 (h2.trans hh)
      simp [h1, h2, hne]
    · simp [h1, h2]
  · split_ifs with hA hB hB <;> first | rfl | (exfalso; exact h ⟨by omega, by
      obtain ⟨hA1, hA2⟩ := hA
      obtain ⟨hB1, hB2⟩ := hB
      rw [hA2, hB2]⟩)
  · split_ifs with hA hB hB <;> first | rfl | (exfalso; exact h ⟨by omega, by
      obtain ⟨hA1, hA2⟩ := hA
      obtain ⟨hB1, hB2⟩ := hB
      rw [hA2, hB2]⟩)

/-- Two slot steps on the same slot commute: the stronger candidate wins
either way. -/
theorem slotStep_comm_same (s : BogState) (r : Nat) (tp : Bool)
    (c1 : BestEdgeOverlap) (n1 : Nat) (c2 : BestEdgeOverlap) (n2 : Nat) :
    slotStep (slotStep s r tp c1 n1) r tp c2 n2 =
      slotStep (slotStep s r tp c2 n2) r tp c1 n1 := by
  unfold slotStep
  by_cases h1 : betterCand c1 n1 (s.edgeAt r tp) (s.scoreAt r tp) <;>
    by_cases h2 : betterCand c2 n2 (s.edgeAt r tp) (s.scoreAt r tp)
  · rw [if_pos h1, if_pos h2]
    simp only [BogState.edgeAt_setSlot, BogState.scoreAt_setSlot, and_self,
      if_pos rfl, if_true]
    by_cases h12 : betterCand c2 n2 c1 n1
    · rw [if_pos h12, if_neg (betterCand_asymm h12), BogState.setSlot_setSlot_same]
    · by_cases h21 : betterCand c1 n1 c2 n2
      · rw [if_neg h12, if_pos h21, BogState.setSlot_setSlot_same]
      · obtain ⟨hc, hn⟩ := betterCand_total h21 h12
        rw [if_neg h12, if_neg h21, hc, hn]
  · rw [if_pos h1, if_neg h2]
    simp only [BogState.edgeAt_setSlot, BogState.scoreAt_setSlot, and_self,
      if_pos rfl, if_true]
    have h21 : ¬ betterCand c2 n2 c1 n1 := fun hh => h2 (betterCand_trans hh h1)
    rw [if_neg h21, if_pos h1]
  · rw [if_neg h1, if_pos h2]
    simp only [BogState.edgeAt_setSlot, BogState.scoreAt_setSlot, and_self,
      if_pos rfl, if_true]
    have h12 : ¬ betterCand c1 n1 c2 n2 := fun hh => h1 (betterCand_trans hh h2)
    rw [if_neg h12]
  · rw [if_neg h1, if_neg h2, if_neg h1]

/-- Slot steps on distinct slots commute. -/
theorem slotStep_comm_diff (s : BogState) (r1 : Nat) (tp1 : Bool)
    (c1 : BestEdgeOverlap) (n1 : Nat) (r2 : Nat) (tp2 : Bool)
    (c2 : BestEdgeOverlap) (n2 : Nat) (h : ¬(r1 = r2 ∧ tp1 = tp2)) :
    slotStep (slotStep s r1 tp1 c1 n1) r2 tp2 c2 n2 =
      slotStep (slotStep s r2 tp2 c2 n2) r1 tp1 c1 n1 := by
  have h' : ¬(r2 = r1 ∧ tp2 = tp1) := fun hh => h ⟨hh.1.symm, hh.2.symm⟩
  unfold slotStep
  by_cases h1 : betterCand c1 n1 (s.edgeAt r1 tp1) (s.scoreAt r1 tp1) <;>
    by_cases h2 : betterCand c2 n2 (s.edgeAt r2 tp2) (s.scoreAt r2 tp2)
  · rw [if_pos h1, if_pos h2]
    simp only [BogState.edgeAt_setSlot, BogState.scoreAt_setSlot,
      if_neg h, if_neg h']
    rw [if_pos h2, if_pos h1]
    exact BogState.setSlot_comm_diff s r1 tp1 c1 n1 r2 tp2 c2 n2 h
  · rw [if_pos h1, if_neg h2]
    simp only [BogState.edgeAt_setSlot, BogState.scoreAt_setSlot,
      if_neg h, if_neg h']
    rw [if_neg h2, if_pos h1]
  · rw [if_neg h1, if_pos h2]
    simp only [BogState.edgeAt_setSlot, BogState.scoreAt_setSlot,
      if_neg h, if_neg h']
    rw [if_neg h1]
  · rw [if_neg h1, if_neg h2, if_neg h1]

/-- Marking an entry contained commutes with updating one of its edges. -/
theorem BestOverlaps.upd_markC (b : BestOverlaps) (tp : Bool) (x : BestEdgeOverlap) :
    ({ b with _isC := true } : BestOverlaps).upd tp x = { b.upd tp x with _isC := true } := by
  cases tp <;> rfl

/-- Marking an entry contained does not change its edges. -/
theorem BestOverlaps.sel_markC (b : BestOverlaps) (tp : Bool) :
    ({ b with _isC := true } : BestOverlaps).sel tp = b.sel tp := by
  cases tp <;> rfl

/-- `setContained` does not change any retained edge. -/
theorem BogState.edgeAt_setContained (s : BogState) (a r : Nat) (tp : Bool) :
    (setContained s a).edgeAt r tp = s.edgeAt r tp := by
  simp only [setContained, BogState.edgeAt]
  by_cases hr : r = a <;> simp [hr, BestOverlaps.sel_markC]

/-- `setContained` does not change any score. -/
theorem BogState.scoreAt_setContained (s : BogState) (a r : Nat) (tp : Bool) :
    (setContained s a).scoreAt r tp = s.scoreAt r tp := rfl

/-- Two `setContained` calls commute. -/
theorem setContained_comm (s : BogState) (a b : Nat) :
    setContained (setContained s a) b = setContained (setContained s b) a := by
  refine BogState.ext' ?_ (fun _ => rfl) (fun _ => rfl) (fun _ => rfl) (fun _ => rfl)
    (fun _ => rfl) rfl
  intro i
  simp only [setContained]
  by_cases h1 : i = a <;> by_cases h2 : i = b
  · have hab : a = b := h1.symm.trans h2
    simp [h1, h2, hab]
  · have hab : a ≠ b := fun hh => h2 (h1.trans hh)
    simp [h1, h2, hab]
  · have hba : b ≠ a := fun hh => h1 (h2.trans hh)
    simp [h1, h2, hba]
  · simp [h1, h2]

/-- `setContained` commutes with a slot write. -/
theorem setContained_setSlot (s : BogState) (a r : Nat) (tp : Bool)
    (x : BestEdgeOverlap) (n : Nat) :
    setContained (s.setSlot r tp x n) a = (setContained s a).setSlot r tp x n := by
  refine BogState.ext' ?_ (fun _ => rfl) (fun _ => rfl) (fun _ => rfl) (fun _ => rfl)
    (fun _ => rfl) rfl
  intro i
  simp only [setContained, BogState.setSlot]
  by_cases h1 : i = a <;> by_cases h2 : i = r
  · have har : a = r := h1.symm.trans h2
    cases tp <;> simp [h1, h2, har, BestOverlaps.upd]
  · have har : a ≠ r := fun hh => h2 (h1.trans hh)
    simp [h1, h2, har]
  · have hra : r ≠ a := fun hh => h1 (h2.trans hh)
    simp [h1, h2, hra]
  · simp [h1, h2]

/-- `setContained` commutes with a slot step. -/
theorem slotStep_setContained (s : BogState) (a r : Nat) (tp : Bool)
    (c : BestEdgeOverlap) (n : Nat) :
    slotStep (setContained s a) r tp c n = setContained (slotStep s r tp c n) a := by
  unfold slotStep
  rw [BogState.edgeAt_setContained, BogState.scoreAt_setContained]
  by_cases hb : betterCand c n (s.edgeAt r tp) (s.scoreAt r tp)
  · rw [if_pos hb, if_pos hb, ← setContained_setSlot]
  · rw [if_neg hb, if_neg hb]

/-- The branch taken by the scoring step depends only on the overlap record,
never on the state. -/
theorem scoreOverlapStep_eq (rl : Nat → Nat) (s : BogState) (o : BAToverlap) :
    scoreOverlapStep rl s o =
      if isContainmentOlap o then
        (if (o.a_hang ≤ 0) ∧ (0 ≤ o.b_hang) then setContained s o.a_iid else s)
      else slotStep s o.a_iid (decide (0 < o.a_hang)) (BestEdgeOverlap.set o)
        (scoreOverlap rl o) := rfl

/-- The scoring step is right-commutative: overlaps may be delivered in any
order. -/
theorem scoreOverlapStep_comm (rl : Nat → Nat) (s : BogState) (o1 o2 : BAToverlap) :
    scoreOverlapStep rl (scoreOverlapStep rl s o1) o2 =
      scoreOverlapStep rl (scoreOverlapStep rl s o2) o1 := by
  rw [scoreOverlapStep_eq, scoreOverlapStep_eq, scoreOverlapStep_eq, scoreOverlapStep_eq]
  by_cases hc1 : isContainmentOlap o1 <;> by_cases hc2 : isContainmentOlap o2
  · simp only [if_pos hc1, if_pos hc2]
    by_cases hp1 : (o1.a_hang ≤ 0) ∧ (0 ≤ o1.b_hang) <;>
      by_cases hp2 : (o2.a_hang ≤ 0) ∧ (0 ≤ o2.b_hang)
    · simp only [if_pos hp1, if_pos hp2]
      exact setContained_comm s _ _
    · simp only [if_pos hp1, if_neg hp2]
    · simp only [if_neg hp1, if_pos hp2]
    · simp only [if_neg hp1, if_neg hp2]
  · simp only [if_pos hc1, if_neg hc2]
    by_cases hp1 : (o1.a_hang ≤ 0) ∧ (0 ≤ o1.b_hang)
    · simp only [if_pos hp1]
      exact slotStep_setContained _ _ _ _ _ _
    · simp only [if_neg hp1]
  · simp only [if_neg hc1, if_pos hc2]
    by_cases hp2 : (o2.a_hang ≤ 0) ∧ (0 ≤ o2.b_hang)
    · simp only [if_pos hp2]
      exact (slotStep_setContained _ _ _ _ _ _).symm
    · simp only [if_neg hp2]
  · simp only [if_neg hc1, if_neg hc2]
    by_cases hs : o1.a_iid = o2.a_iid ∧ (decide (0 < o1.a_hang) : Bool) =
        (decide (0 < o2.a_hang) : Bool)
    · obtain ⟨hr, ht⟩ := hs
      rw [hr, ht]
      exact slotStep_comm_same _ _ _ _ _ _ _
    · exact slotStep_comm_diff _ _ _ _ _ _ _ _ _ hs

/-- A fold of a right-commutative step is invariant under permutation of the
input list. -/
theorem foldl_perm_eq {α β : Type} (f : β → α → β)
    (comm : ∀ s a b, f (f s a) b = f (f s b) a) {l1 l2 : List α}
    (h : l1.Perm l2) : ∀ s : β, l1.foldl f s = l2.foldl f s := by
  induction h with
  | nil => intro s; rfl
  | cons x _ ih => intro s; simpa using ih (f s x)
  | swap x y l => intro s; simp only [List.foldl_cons]; rw [comm]
  | trans _ _ ih1 ih2 => intro s; rw [ih1 s, ih2 s]

/-- The scoring pass is delivery-order independent. -/
theorem findEdges_perm (rl : Nat → Nat) {l1 l2 : List BAToverlap} (h : l1.Perm l2)
    (s : BogState) : findEdges rl l1 s = findEdges rl l2 s :=
  foldl_perm_eq _ (scoreOverlapStep_comm rl) h s

/-- C4: construction is order-independent — for every two delivery orders of
the same overlap multiset, building with the same parameters yields
identical retained best edges at every (read, end) pair. -/
theorem claim_C4 (cfg : BogConfig) (numReads : Nat) (readLen : Nat → Nat)
    {ovls1 ovls2 : List BAToverlap} (h : ovls1.Perm ovls2) (r : Nat) (tp : Bool) :
    getBestEdgeOverlap (buildGraph cfg numReads readLen ovls1) r tp =
      getBestEdgeOverlap (buildGraph cfg numReads readLen ovls2) r tp := by
  unfold buildGraph
  rw [findEdges_perm readLen h]

/-- Witness for C4: the two-overlap input delivered in both orders yields the
same retained 3' edge of read 1. -/
theorem claim_C4_witness :
    ([exOlapAB, exOlapContained].Perm [exOlapContained, exOlapAB]) ∧
    getBestEdgeOverlap exGraph2 1 true = getBestEdgeOverlap exGraph2rev 1 true := by
  refine ⟨List.Perm.swap exOlapContained exOlapAB [], ?_⟩
  exact claim_C4 exCfgOff 4 exReadLen (List.Perm.swap exOlapContained exOlapAB []) 1 true

/-- Clearing the cleared edge is a no-op. -/
theorem heClear_clear (l c : ℚ) : heClear l c BestEdgeOverlap.clear = BestEdgeOverlap.clear := by
  unfold heClear
  split <;> rfl

/-- A high-error-cleared edge is the original edge or the zero edge. -/
theorem heClear_cases (l c : ℚ) (e : BestEdgeOverlap) :
    heClear l c e = e ∨ heClear l c e = BestEdgeOverlap.clear := by
  unfold heClear
  split
  · exact Or.inr rfl
  · exact Or.inl rfl

/-- The high-error clearing of a single edge is idempotent. -/
theorem heClear_idem (l c : ℚ) (e : BestEdgeOverlap) :
    heClear l c (heClear l c e) = heClear l c e := by
  rcases heClear_cases l c e with h | h
  · rw [h]
    exact h
  · rw [h]
    exact heClear_clear l c

/-- The high-error pass does not change scores or statistics or the
suspicious and spur sets. -/
theorem removeHighErrorPass_frame (cfg : BogConfig) (s : BogState) :
    (removeHighErrorPass cfg s).score5 = s.score5 ∧
    (removeHighErrorPass cfg s).score3 = s.score3 ∧
    (removeHighErrorPass cfg s).errorLimit = s.errorLimit ∧
    (removeHighErrorPass cfg s).suspicious = s.suspicious ∧
    (removeHighErrorPass cfg s).spur = s.spur := by
  unfold removeHighErrorPass
  split <;> exact ⟨rfl, rfl, rfl, rfl, rfl⟩

/-- The high-error pass keeps every containment flag. -/
theorem removeHighErrorPass_isC (cfg : BogConfig) (s : BogState) (r : Nat) :
    ((removeHighErrorPass cfg s).best r)._isC = (s.best r)._isC := by
  unfold removeHighErrorPass
  split <;> rfl

/-- The retained edge after the high-error pass. -/
theorem removeHighErrorPass_edgeAt (cfg : BogConfig) (s : BogState) (r : Nat) (tp : Bool) :
    (removeHighErrorPass cfg s).edgeAt r tp =
      if cfg.filterHighError = true then heClear s.errorLimit cfg.erateGraph (s.edgeAt r tp)
      else s.edgeAt r tp := by
  cases hf : cfg.filterHighError <;>
    simp only [removeHighErrorPass, hf, Bool.false_eq_true, if_false, if_true] <;>
    cases tp <;> rfl

/-- The singleton set after the high-error pass. -/
theorem removeHighErrorPass_singleton (cfg : BogConfig) (s : BogState) (r : Nat) :
    (removeHighErrorPass cfg s).singleton r =
      if cfg.filterHighError = true then
        s.singleton r ||
          decide ((s.best r).hasEdge ∧
            heClear s.errorLimit cfg.erateGraph (s.best r)._best5 = BestEdgeOverlap.clear ∧
            heClear s.errorLimit cfg.erateGraph (s.best r)._best3 = BestEdgeOverlap.clear)
      else s.singleton r := by
  cases hf : cfg.filterHighError <;>
    simp only [removeHighErrorPass, hf, Bool.false_eq_true, if_false, if_true] <;> rfl

/-- The contained-dovetail pass does not change scores, statistics or any
flag set. -/
theorem removeContainedDovetailsPass_frame (s : BogState) :
    (removeContainedDovetailsPass s).score5 = s.score5 ∧
    (removeContainedDovetailsPass s).score3 = s.score3 ∧
    (removeContainedDovetailsPass s).errorLimit = s.errorLimit ∧
    (removeContainedDovetailsPass s).suspicious = s.suspicious ∧
    (removeContainedDovetailsPass s).singleton = s.singleton ∧
    (removeContainedDovetailsPass s).spur = s.spur :=
  ⟨rfl, rfl, rfl, rfl, rfl, rfl⟩

/-- The contained-dovetail pass never changes the containment flag itself. -/
theorem removeContainedDovetailsPass_isC (s : BogState) (r : Nat) :
    ((removeContainedDovetailsPass s).best r)._isC = (s.best r)._isC := by
  unfold removeContainedDovetailsPass
  by_cases h : (s.best r)._isC <;> simp [h]

/-- The retained edge after the contained-dovetail pass. -/
theorem removeContainedDovetailsPass_edgeAt (s : BogState) (r : Nat) (tp : Bool) :
    (removeContainedDovetailsPass s).edgeAt r tp =
      if (s.best r)._isC then BestEdgeOverlap.clear else s.edgeAt r tp := by
  unfold removeContainedDovetailsPass BogState.edgeAt
  by_cases h : (s.best r)._isC <;> simp [h] <;> cases tp <;> rfl

/-- The lopsided pass does not change scores, statistics or any flag set. -/
theorem removeLopsidedPass_frame (cfg : BogConfig) (s : BogState) :
    (removeLopsidedPass cfg s).score5 = s.score5 ∧
    (removeLopsidedPass cfg s).score3 = s.score3 ∧
    (removeLopsidedPass cfg s).errorLimit = s.errorLimit ∧
    (removeLopsidedPass cfg s).suspicious = s.suspicious ∧
    (removeLopsidedPass cfg s).singleton = s.singleton ∧
    (removeLopsidedPass cfg s).spur = s.spur := by
  unfold removeLopsidedPass
  split <;> exact ⟨rfl, rfl, rfl, rfl, rfl, rfl⟩

/-- The lopsided pass keeps every containment flag. -/
theorem removeLopsidedPass_isC (cfg : BogConfig) (s : BogState) (r : Nat) :
    ((removeLopsidedPass cfg s).best r)._isC = (s.best r)._isC := by
  unfold removeLopsidedPass
  split <;> rfl

/-- The retained edge after the lopsided pass. -/
theorem removeLopsidedPass_edgeAt (cfg : BogConfig) (s : BogState) (r : Nat) (tp : Bool) :
    (removeLopsidedPass cfg s).edgeAt r tp =
      if cfg.filterLopsided = true then
        (if tp then (if 2 * s.score3 r < s.score5 r then BestEdgeOverlap.clear
                     else s.edgeAt r tp)
         else (if 2 * s.score5 r < s.score3 r then BestEdgeOverlap.clear
               else s.edgeAt r tp))
      else s.edgeAt r tp := by
  cases hf : cfg.filterLopsided <;>
    simp only [removeLopsidedPass, hf, Bool.false_eq_true, if_false, if_true] <;>
    cases tp <;> rfl

/-- The spur pass does not change scores, statistics, the suspicious set or
the singleton set. -/
theorem removeSpursPass_frame (cfg : BogConfig) (s : BogState) :
    (removeSpursPass cfg s).score5 = s.score5 ∧
    (removeSpursPass cfg s).score3 = s.score3 ∧
    (removeSpursPass cfg s).errorLimit = s.errorLimit ∧
    (removeSpursPass cfg s).suspicious = s.suspicious ∧
    (removeSpursPass cfg s).singleton = s.singleton := by
  unfold removeSpursPass
  split <;> exact ⟨rfl, rfl, rfl, rfl, rfl⟩

/-- The spur pass keeps every containment flag. -/
theorem removeSpursPass_isC (cfg : BogConfig) (s : BogState) (r : Nat) :
    ((removeSpursPass cfg s).best r)._isC = (s.best r)._isC := by
  unfold removeSpursPass
  split
  · rfl
  · by_cases h : isSpurEntry (s.best r) <;> simp [h]

/-- The retained edge after the spur pass. -/
theorem removeSpursPass_edgeAt (cfg : BogConfig) (s : BogState) (r : Nat) (tp : Bool) :
    (removeSpursPass cfg s).edgeAt r tp =
      if cfg.filterSpur = true then
        (if isSpurEntry (s.best r) then BestEdgeOverlap.clear else s.edgeAt r tp)
      else s.edgeAt r tp := by
  unfold removeSpursPass
  by_cases hf : cfg.filterSpur = false
  · rw [if_pos hf, hf]
    simp
  · have hf' : cfg.filterSpur = true := by
      revert hf
      cases cfg.filterSpur <;> simp
    rw [if_neg hf, hf']
    simp only [eq_self_iff_true, if_true]
    by_cases h : isSpurEntry (s.best r)
    · simp only [BogState.edgeAt, if_pos h]
      cases tp <;> rfl
    · simp only [BogState.edgeAt, if_neg h]

/-- The spur set after the spur pass. -/
theorem removeSpursPass_spur (cfg : BogConfig) (s : BogState) (r : Nat) :
    (removeSpursPass cfg s).spur r =
      if cfg.filterSpur = true then s.spur r || decide (isSpurEntry (s.best r))
      else s.spur r := by
  cases hf : cfg.filterSpur <;>
    simp only [removeSpursPass, hf, Bool.false_eq_true, if_false, if_true] <;> rfl

/-- The suspicious pass changes nothing but the suspicious set. -/
theorem removeSuspiciousPass_frame (cfg : BogConfig) (s : BogState) :
    (removeSuspiciousPass cfg s).best = s.best ∧
    (removeSuspiciousPass cfg s).score5 = s.score5 ∧
    (removeSuspiciousPass cfg s).score3 = s.score3 ∧
    (removeSuspiciousPass cfg s).errorLimit = s.errorLimit ∧
    (removeSuspiciousPass cfg s).singleton = s.singleton ∧
    (removeSuspiciousPass cfg s).spur = s.spur := by
  unfold removeSuspiciousPass
  split <;> exact ⟨rfl, rfl, rfl, rfl, rfl, rfl⟩

/-- The suspicious set after the suspicious pass. -/
theorem removeSuspiciousPass_suspicious (cfg : BogConfig) (s : BogState) (r : Nat) :
    (removeSuspiciousPass cfg s).suspicious r =
      if cfg.filterSuspicious = true then s.suspicious r || decide (suspiciousEntry s r)
      else s.suspicious r := by
  cases hf : cfg.filterSuspicious <;>
    simp only [removeSuspiciousPass, hf, Bool.false_eq_true, if_false, if_true] <;> rfl

/-- The mutual-consistency test depends only on the retained edges. -/
theorem suspiciousEntry_congr {s t : BogState} (h : s.best = t.best) (r : Nat) :
    suspiciousEntry s r ↔ suspiciousEntry t r := by
  unfold suspiciousEntry BogState.edgeAt
  rw [h]

/-- When every retained edge is already stable under high-error clearing, the
high-error pass is the identity. -/
theorem removeHighErrorPass_id (cfg : BogConfig) (s : BogState)
    (hstab : cfg.filterHighError = true →
      ∀ r, heClear s.errorLimit cfg.erateGraph ((s.best r)._best5) = (s.best r)._best5 ∧
           heClear s.errorLimit cfg.erateGraph ((s.best r)._best3) = (s.best r)._best3) :
    removeHighErrorPass cfg s = s := by
  unfold removeHighErrorPass
  by_cases hf : cfg.filterHighError = false
  · rw [if_pos hf]
  · have hf' : cfg.filterHighError = true := by
      revert hf
      cases cfg.filterHighError <;> simp
    rw [if_neg hf]
    refine BogState.ext' ?_ (fun _ => rfl) (fun _ => rfl) (fun _ => rfl) ?_ (fun _ => rfl) rfl
    · intro r
      dsimp only
      rw [(hstab hf' r).1, (hstab hf' r).2]
    · intro r
      have hcond : ¬((s.best r).hasEdge ∧
          heClear s.errorLimit cfg.erateGraph (s.best r)._best5 = BestEdgeOverlap.clear ∧
          heClear s.errorLimit cfg.erateGraph (s.best r)._best3 = BestEdgeOverlap.clear) := by
        rintro ⟨he, h5, h3⟩
        rw [(hstab hf' r).1] at h5
        rw [(hstab hf' r).2] at h3
        rcases he with h | h
        · exact h h5
        · exact h h3
      simp [hcond]

/-- When every contained read's edges are already cleared, the
contained-dovetail pass is the identity. -/
theorem removeContainedDovetailsPass_id (s : BogState)
    (h : ∀ r, (s.best r)._isC = true →
      (s.best r)._best5 = BestEdgeOverlap.clear ∧ (s.best r)._best3 = BestEdgeOverlap.clear) :
    removeContainedDovetailsPass s = s := by
  unfold removeContainedDovetailsPass
  refine BogState.ext' ?_ (fun _ => rfl) (fun _ => rfl) (fun _ => rfl) (fun _ => rfl)
    (fun _ => rfl) rfl
  intro r
  dsimp only
  by_cases hc : (s.best r)._isC
  · rw [if_pos hc]
    nth_rewrite 2 [← (h r hc).2]
    rw [← (h r hc).1, ← hc]
  · rw [if_neg hc]

/-- When every lopsided-condition end is already cleared, the lopsided pass
is the identity. -/
theorem removeLopsidedPass_id (cfg : BogConfig) (s : BogState)
    (h : cfg.filterLopsided = true →
      ∀ r, (2 * s.score5 r < s.score3 r → (s.best r)._best5 = BestEdgeOverlap.clear) ∧
           (2 * s.score3 r < s.score5 r → (s.best r)._best3 = BestEdgeOverlap.clear)) :
    removeLopsidedPass cfg s = s := by
  unfold removeLopsidedPass
  by_cases hf : cfg.filterLopsided = false
  · rw [if_pos hf]
  · have hf' : cfg.filterLopsided = true := by
      revert hf
      cases cfg.filterLopsided <;> simp
    rw [if_neg hf]
    refine BogState.ext' ?_ (fun _ => rfl) (fun _ => rfl) (fun _ => rfl) (fun _ => rfl)
      (fun _ => rfl) rfl
    intro r
    dsimp only
    by_cases h5 : 2 * s.score5 r < s.score3 r <;> by_cases h3 : 2 * s.score3 r < s.score5 r
    · rw [if_pos h5, if_pos h3]
      nth_rewrite 2 [← (h hf' r).2 h3]
      rw [← (h hf' r).1 h5]
    · rw [if_pos h5, if_neg h3, ← (h hf' r).1 h5]
    · rw [if_neg h5, if_pos h3, ← (h hf' r).2 h3]
    · rw [if_neg h5, if_neg h3]

/-- When no read is a spur, the spur pass is the identity. -/
theorem removeSpursPass_id (cfg : BogConfig) (s : BogState)
    (h : cfg.filterSpur = true → ∀ r, ¬ isSpurEntry (s.best r)) :
    removeSpursPass cfg s = s := by
  unfold removeSpursPass
  by_cases hf : cfg.filterSpur = false
  · rw [if_pos hf]
  · have hf' : cfg.filterSpur = true := by
      revert hf
      cases cfg.filterSpur <;> simp
    rw [if_neg hf]
    refine BogState.ext' ?_ (fun _ => rfl) (fun _ => rfl) (fun _ => rfl) (fun _ => rfl)
      ?_ rfl
    · intro r
      dsimp only
      rw [if_neg (h hf' r)]
    · intro r
      dsimp only
      simp [h hf' r]

/-- The suspicious pass is idempotent. -/
theorem removeSuspiciousPass_idem (cfg : BogConfig) (s : BogState) :
    removeSuspiciousPass cfg (removeSuspiciousPass cfg s) = removeSuspiciousPass cfg s := by
  by_cases hf : cfg.filterSuspicious = false
  · unfold removeSuspiciousPass
    rw [if_pos hf, if_pos hf]
  · have hf' : cfg.filterSuspicious = true := by
      revert hf
      cases cfg.filterSuspicious <;> simp
    refine BogState.ext' (fun r => ?_) (fun _ => ?_) (fun _ => ?_) (fun r => ?_)
      (fun _ => ?_) (fun _ => ?_) ?_
    · rw [congrFun (removeSuspiciousPass_frame cfg _).1 r,
        congrFun (removeSuspiciousPass_frame cfg s).1 r]
    · rw [congrFun (removeSuspiciousPass_frame cfg _).2.1 _,
        congrFun (removeSuspiciousPass_frame cfg s).2.1 _]
    · rw [congrFun (removeSuspiciousPass_frame cfg _).2.2.1 _,
        congrFun (removeSuspiciousPass_frame cfg s).2.2.1 _]
    · rw [removeSuspiciousPass_suspicious, if_pos hf', removeSuspiciousPass_suspicious,
        if_pos hf']
      have hc : suspiciousEntry (removeSuspiciousPass cfg s) r ↔ suspiciousEntry s r :=
        suspiciousEntry_congr (removeSuspiciousPass_frame cfg s).1 r
      by_cases h : suspiciousEntry s r
      · simp [h, hc.mpr h]
      · have h2 : ¬ suspiciousEntry (removeSuspiciousPass cfg s) r := fun hh => h (hc.mp hh)
        simp [h, h2]
    · rw [congrFun (removeSuspiciousPass_frame cfg _).2.2.2.2.1 _,
        congrFun (removeSuspiciousPass_frame cfg s).2.2.2.2.1 _]
    · rw [congrFun (removeSuspiciousPass_frame cfg _).2.2.2.2.2 _,
        congrFun (removeSuspiciousPass_frame cfg s).2.2.2.2.2 _]
    · rw [(removeSuspiciousPass_frame cfg _).2.2.2.1,
        (removeSuspiciousPass_frame cfg s).2.2.2.1]

/-- An edge equal to another up to clearing, composed transitively. -/
theorem shrink_trans {a b c : BestEdgeOverlap} (h1 : a = b ∨ a = BestEdgeOverlap.clear)
    (h2 : b = c ∨ b = BestEdgeOverlap.clear) : a = c ∨ a = BestEdgeOverlap.clear := by
  rcases h1 with h1 | h1
  · rcases h2 with h2 | h2
    · exact Or.inl (h1.trans h2)
    · exact Or.inr (h1.trans h2)
  · exact Or.inr h1

/-- The suspicious pass keeps every retained edge. -/
theorem removeSuspiciousPass_edgeAt (cfg : BogConfig) (u : BogState) (r : Nat) (tp : Bool) :
    (removeSuspiciousPass cfg u).edgeAt r tp = u.edgeAt r tp := by
  unfold BogState.edgeAt
  rw [(removeSuspiciousPass_frame cfg u).1]

/-- Each high-error-pass edge is the old edge or cleared. -/
theorem removeHighErrorPass_edge_cases (cfg : BogConfig) (u : BogState) (r : Nat) (tp : Bool) :
    (removeHighErrorPass cfg u).edgeAt r tp = u.edgeAt r tp ∨
    (removeHighErrorPass cfg u).edgeAt r tp = BestEdgeOverlap.clear := by
  rw [removeHighErrorPass_edgeAt]
  split
  · exact heClear_cases _ _ _
  · exact Or.inl rfl

/-- Each contained-dovetail-pass edge is the old edge or cleared. -/
theorem removeContainedDovetailsPass_edge_cases (u : BogState) (r : Nat) (tp : Bool) :
    (removeContainedDovetailsPass u).edgeAt r tp = u.edgeAt r tp ∨
    (removeContainedDovetailsPass u).edgeAt r tp = BestEdgeOverlap.clear := by
  rw [removeContainedDovetailsPass_edgeAt]
  split
  · exact Or.inr rfl
  · exact Or.inl rfl

/-- Each lopsided-pass edge is the old edge or cleared. -/
theorem removeLopsidedPass_edge_cases (cfg : BogConfig) (u : BogState) (r : Nat) (tp : Bool) :
    (removeLopsidedPass cfg u).edgeAt r tp = u.edgeAt r tp ∨
    (removeLopsidedPass cfg u).edgeAt r tp = BestEdgeOverlap.clear := by
  rw [removeLopsidedPass_edgeAt]
  split_ifs <;> first | exact Or.inl rfl | exact Or.inr rfl

/-- Each spur-pass edge is the old edge or cleared. -/
theorem removeSpursPass_edge_cases (cfg : BogConfig) (u : BogState) (r : Nat) (tp : Bool) :
    (removeSpursPass cfg u).edgeAt r tp = u.edgeAt r tp ∨
    (removeSpursPass cfg u).edgeAt r tp = BestEdgeOverlap.clear := by
  rw [removeSpursPass_edgeAt]
  split_ifs <;> first | exact Or.inl rfl | exact Or.inr rfl

/-- The per-read entry after the spur pass. -/
theorem removeSpursPass_best (cfg : BogConfig) (u : BogState) (r : Nat) :
    (removeSpursPass cfg u).best r =
      if cfg.filterSpur = true then
        (if isSpurEntry (u.best r) then
          { _best5 := BestEdgeOverlap.clear, _best3 := BestEdgeOverlap.clear
            _isC := (u.best r)._isC }
         else u.best r)
      else u.best r := by
  unfold removeSpursPass
  by_cases hf : cfg.filterSpur = false
  · rw [if_pos hf, hf]
    simp
  · have hf' : cfg.filterSpur = true := by
      revert hf
      cases cfg.filterSpur <;> simp
    rw [if_neg hf, hf']
    simp only [eq_self_iff_true, if_true]

/-- The filtered graph keeps the statistics of its input. -/
theorem filterSeq_errorLimit (cfg : BogConfig) (s : BogState) :
    (filterSeq cfg s).errorLimit = s.errorLimit := by
  unfold filterSeq
  rw [(removeSuspiciousPass_frame _ _).2.2.2.1, (removeSpursPass_frame _ _).2.2.1,
    (removeLopsidedPass_frame _ _).2.2.1, (removeContainedDovetailsPass_frame _).2.2.1,
    (removeHighErrorPass_frame _ _).2.2.1]

/-- The filtered graph keeps the scores of its input. -/
theorem filterSeq_scores (cfg : BogConfig) (s : BogState) :
    (filterSeq cfg s).score5 = s.score5 ∧ (filterSeq cfg s).score3 = s.score3 := by
  unfold filterSeq
  constructor
  · rw [(removeSuspiciousPass_frame _ _).2.1, (removeSpursPass_frame _ _).1,
      (removeLopsidedPass_frame _ _).1, (removeContainedDovetailsPass_frame _).1,
      (removeHighErrorPass_frame _ _).1]
  · rw [(removeSuspiciousPass_frame _ _).2.2.1, (removeSpursPass_frame _ _).2.1,
      (removeLopsidedPass_frame _ _).2.1, (removeContainedDovetailsPass_frame _).2.1,
      (removeHighErrorPass_frame _ _).2.1]

/-- The filtered graph keeps every containment flag of its input. -/
theorem filterSeq_isC (cfg : BogConfig) (s : BogState) (r : Nat) :
    ((filterSeq cfg s).best r)._isC = ((s.best r))._isC := by
  unfold filterSeq
  rw [congrFun (removeSuspiciousPass_frame _ _).1 r, removeSpursPass_isC,
    removeLopsidedPass_isC, removeContainedDovetailsPass_isC, removeHighErrorPass_isC]

/-- Each filtered edge is the corresponding high-error-pass edge or cleared. -/
theorem filterSeq_shrink_he (cfg : BogConfig) (s : BogState) (r : Nat) (tp : Bool) :
    (filterSeq cfg s).edgeAt r tp = (removeHighErrorPass cfg s).edgeAt r tp ∨
    (filterSeq cfg s).edgeAt r tp = BestEdgeOverlap.clear := by
  unfold filterSeq
  rw [removeSuspiciousPass_edgeAt]
  exact shrink_trans (removeSpursPass_edge_cases _ _ _ _)
    (shrink_trans (removeLopsidedPass_edge_cases _ _ _ _)
      (removeContainedDovetailsPass_edge_cases _ _ _))

/-- Each filtered edge is the corresponding contained-pass edge or cleared. -/
theorem filterSeq_shrink_cont (cfg : BogConfig) (s : BogState) (r : Nat) (tp : Bool) :
    (filterSeq cfg s).edgeAt r tp =
      (removeContainedDovetailsPass (removeHighErrorPass cfg s)).edgeAt r tp ∨
    (filterSeq cfg s).edgeAt r tp = BestEdgeOverlap.clear := by
  unfold filterSeq
  rw [removeSuspiciousPass_edgeAt]
  exact shrink_trans (removeSpursPass_edge_cases _ _ _ _)
    (removeLopsidedPass_edge_cases _ _ _ _)

/-- Each filtered edge is the corresponding lopsided-pass edge or cleared. -/
theorem filterSeq_shrink_lop (cfg : BogConfig) (s : BogState) (r : Nat) (tp : Bool) :
    (filterSeq cfg s).edgeAt r tp =
      (removeLopsidedPass cfg
        (removeContainedDovetailsPass (removeHighErrorPass cfg s))).edgeAt r tp ∨
    (filterSeq cfg s).edgeAt r tp = BestEdgeOverlap.clear := by
  unfold filterSeq
  rw [removeSuspiciousPass_edgeAt]
  exact removeSpursPass_edge_cases _ _ _ _

/-- Each filtered edge is the original edge or cleared: filtering never adds
an edge. -/
theorem filterSeq_edge_shrink (cfg : BogConfig) (s : BogState) (r : Nat) (tp : Bool) :
    (filterSeq cfg s).edgeAt r tp = s.edgeAt r tp ∨
    (filterSeq cfg s).edgeAt r tp = BestEdgeOverlap.clear := by
  exact shrink_trans (filterSeq_shrink_he cfg s r tp)
    (removeHighErrorPass_edge_cases cfg s r tp)

/-- Every edge of the filtered graph is stable under a further high-error
clearing. -/
theorem filterSeq_he_stable (cfg : BogConfig) (s : BogState)
    (hf : cfg.filterHighError = true) (r : Nat) (tp : Bool) :
    heClear (filterSeq cfg s).errorLimit cfg.erateGraph ((filterSeq cfg s).edgeAt r tp) =
      (filterSeq cfg s).edgeAt r tp := by
  rw [filterSeq_errorLimit]
  rcases filterSeq_shrink_he cfg s r tp with h | h
  · rw [h, removeHighErrorPass_edgeAt, if_pos hf]
    exact heClear_idem _ _ _
  · rw [h]
    exact heClear_clear _ _

/-- Every contained read of the filtered graph has cleared edges. -/
theorem filterSeq_cont_stable (cfg : BogConfig) (s : BogState) (r : Nat)
    (hc : ((filterSeq cfg s).best r)._isC = true) (tp : Bool) :
    (filterSeq cfg s).edgeAt r tp = BestEdgeOverlap.clear := by
  have hc1 : ((removeHighErrorPass cfg s).best r)._isC = true := by
    rw [removeHighErrorPass_isC, ← filterSeq_isC cfg s r]
    exact hc
  have h2 : (removeContainedDovetailsPass (removeHighErrorPass cfg s)).edgeAt r tp =
      BestEdgeOverlap.clear := by
    rw [removeContainedDovetailsPass_edgeAt, if_pos hc1]
  rcases filterSeq_shrink_cont cfg s r tp with h | h
  · rw [h]
    exact h2
  · exact h

/-- Every lopsided-condition end of the filtered graph is already cleared. -/
theorem filterSeq_lop_stable (cfg : BogConfig) (s : BogState)
    (hf : cfg.filterLopsided = true) (r : Nat) :
    (2 * (filterSeq cfg s).score5 r < (filterSeq cfg s).score3 r →
      ((filterSeq cfg s).best r)._best5 = BestEdgeOverlap.clear) ∧
    (2 * (filterSeq cfg s).score3 r < (filterSeq cfg s).score5 r →
      ((filterSeq cfg s).best r)._best3 = BestEdgeOverlap.clear) := by
  have hs5 : (removeContainedDovetailsPass (removeHighErrorPass cfg s)).score5 = s.score5 := by
    rw [(removeContainedDovetailsPass_frame _).1, (removeHighErrorPass_frame _ _).1]
  have hs3 : (removeContainedDovetailsPass (removeHighErrorPass cfg s)).score3 = s.score3 := by
    rw [(removeContainedDovetailsPass_frame _).2.1, (removeHighErrorPass_frame _ _).2.1]
  constructor
  · intro hlt
    rw [(filterSeq_scores cfg s).1, (filterSeq_scores cfg s).2] at hlt
    have h3 : (removeLopsidedPass cfg
        (removeContainedDovetailsPass (removeHighErrorPass cfg s))).edgeAt r false =
        BestEdgeOverlap.clear := by
      rw [removeLopsidedPass_edgeAt, if_pos hf]
      simp only [Bool.false_eq_true, if_false]
      rw [hs5, hs3, if_pos hlt]
    rcases filterSeq_shrink_lop cfg s r false with h | h
    · exact h.trans h3
    · exact h
  · intro hlt
    rw [(filterSeq_scores cfg s).1, (filterSeq_scores cfg s).2] at hlt
    have h3 : (removeLopsidedPass cfg
        (removeContainedDovetailsPass (removeHighErrorPass cfg s))).edgeAt r true =
        BestEdgeOverlap.clear := by
      rw [removeLopsidedPass_edgeAt, if_pos hf]
      simp only [if_true]
      rw [hs5, hs3, if_pos hlt]
    rcases filterSeq_shrink_lop cfg s r true with h | h
    · exact h.trans h3
    · exact h

/-- No read of the filtered graph is a spur. -/
theorem filterSeq_spur_stable (cfg : BogConfig) (s : BogState)
    (hf : cfg.filterSpur = true) (r : Nat) :
    ¬ isSpurEntry ((filterSeq cfg s).best r) := by
  have hb : (filterSeq cfg s).best r =
      (removeSpursPass cfg (removeLopsidedPass cfg
        (removeContainedDovetailsPass (removeHighErrorPass cfg s)))).best r := by
    exact congrFun (removeSuspiciousPass_frame cfg _).1 r
  rw [hb, removeSpursPass_best, if_pos hf]
  by_cases h : isSpurEntry ((removeLopsidedPass cfg
      (removeContainedDovetailsPass (removeHighErrorPass cfg s))).best r)
  · rw [if_pos h]
    intro hsp
    rcases hsp with ⟨_, hne⟩ | ⟨hne, _⟩ <;> exact hne rfl
  · rw [if_neg h]
    exact h

/-- The filter-pass sequence is idempotent: the filtered graph is a fixed
point. -/
theorem filterSeq_idem (cfg : BogConfig) (s : BogState) :
    filterSeq cfg (filterSeq cfg s) = filterSeq cfg s := by
  have h1 : removeHighErrorPass cfg (filterSeq cfg s) = filterSeq cfg s :=
    removeHighErrorPass_id cfg _ (fun hf r =>
      ⟨filterSeq_he_stable cfg s hf r false, filterSeq_he_stable cfg s hf r true⟩)
  have h2 : removeContainedDovetailsPass (filterSeq cfg s) = filterSeq cfg s :=
    removeContainedDovetailsPass_id _ (fun r hc =>
      ⟨filterSeq_cont_stable cfg s r hc false, filterSeq_cont_stable cfg s r hc true⟩)
  have h3 : removeLopsidedPass cfg (filterSeq cfg s) = filterSeq cfg s :=
    removeLopsidedPass_id cfg _ (fun hf r => filterSeq_lop_stable cfg s hf r)
  have h4 : removeSpursPass cfg (filterSeq cfg s) = filterSeq cfg s :=
    removeSpursPass_id cfg _ (fun hf r => filterSeq_spur_stable cfg s hf r)
  show removeSuspiciousPass cfg (removeSpursPass cfg (removeLopsidedPass cfg
    (removeContainedDovetailsPass (removeHighErrorPass cfg (filterSeq cfg s))))) =
    filterSeq cfg s
  rw [h1, h2, h3, h4]
  exact removeSuspiciousPass_idem cfg
    (removeSpursPass cfg (removeLopsidedPass cfg
      (removeContainedDovetailsPass (removeHighErrorPass cfg s))))

/-- C7: running the filter pass sequence a second time changes no retained
best edge, no containment flag and no flag set — the filtered graph is a
fixed point — and filtering never adds an edge: every filtered edge is the
original edge or the cleared edge. -/
theorem claim_C7 (cfg : BogConfig) (s : BogState) (r : Nat) (tp : Bool) :
    (filterSeq cfg (filterSeq cfg s)).edgeAt r tp = (filterSeq cfg s).edgeAt r tp ∧
    ((filterSeq cfg (filterSeq cfg s)).best r)._isC = ((filterSeq cfg s).best r)._isC ∧
    (filterSeq cfg (filterSeq cfg s)).suspicious r = (filterSeq cfg s).suspicious r ∧
    (filterSeq cfg (filterSeq cfg s)).singleton r = (filterSeq cfg s).singleton r ∧
    (filterSeq cfg (filterSeq cfg s)).spur r = (filterSeq cfg s).spur r ∧
    ((filterSeq cfg s).edgeAt r tp = s.edgeAt r tp ∨
     (filterSeq cfg s).edgeAt r tp = BestEdgeOverlap.clear) := by
  rw [filterSeq_idem]
  exact ⟨rfl, rfl, rfl, rfl, rfl, filterSeq_edge_shrink cfg s r tp⟩

/-- The query `getBestEdgeOverlap` reads exactly the retained edge. -/
theorem getBestEdgeOverlap_edgeAt (s : BogState) (r : Nat) (tp : Bool) :
    getBestEdgeOverlap s r tp = s.edgeAt r tp := by
  cases tp <;> rfl

/-- The zero-initialized graph retains no edge. -/
theorem BogState.zero_edgeAt (r : Nat) (tp : Bool) :
    BogState.zero.edgeAt r tp = BestEdgeOverlap.clear := by
  cases tp <;> rfl

/-- One scoring step leaves an edge unchanged or installs the incoming
overlap at an end of its own A read. -/
theorem scoreOverlapStep_edge_cases (rl : Nat → Nat) (s : BogState) (o : BAToverlap)
    (r : Nat) (tp : Bool) :
    (scoreOverlapStep rl s o).edgeAt r tp = s.edgeAt r tp ∨
    ((scoreOverlapStep rl s o).edgeAt r tp = BestEdgeOverlap.set o ∧ o.a_iid = r) := by
  rw [scoreOverlapStep_eq]
  split
  · split
    · exact Or.inl (BogState.edgeAt_setContained s _ r tp)
    · exact Or.inl rfl
  · unfold slotStep
    split
    · rw [BogState.edgeAt_setSlot]
      split
      · next h => exact Or.inr ⟨rfl, h.1.symm⟩
      · exact Or.inl rfl
    · exact Or.inl rfl

/-- One scoring step never touches the flag sets or the statistics. -/
theorem scoreOverlapStep_frame (rl : Nat → Nat) (s : BogState) (o : BAToverlap) :
    (scoreOverlapStep rl s o).suspicious = s.suspicious ∧
    (scoreOverlapStep rl s o).singleton = s.singleton ∧
    (scoreOverlapStep rl s o).spur = s.spur ∧
    (scoreOverlapStep rl s o).errorLimit = s.errorLimit := by
  rw [scoreOverlapStep_eq]
  split
  · split <;> exact ⟨rfl, rfl, rfl, rfl⟩
  · unfold slotStep
    split <;> exact ⟨rfl, rfl, rfl, rfl⟩

/-- One scoring step touches only the per-read state of its own A read. -/
theorem scoreOverlapStep_untouched (rl : Nat → Nat) (s : BogState) (o : BAToverlap)
    (r : Nat) (h : o.a_iid ≠ r) :
    (scoreOverlapStep rl s o).best r = s.best r ∧
    (scoreOverlapStep rl s o).score5 r = s.score5 r ∧
    (scoreOverlapStep rl s o).score3 r = s.score3 r := by
  have hne : r ≠ o.a_iid := fun hh => h hh.symm
  rw [scoreOverlapStep_eq]
  split
  · split
    · refine ⟨?_, rfl, rfl⟩
      unfold setContained
      simp [hne]
    · exact ⟨rfl, rfl, rfl⟩
  · unfold slotStep
    split
    · unfold BogState.setSlot
      refine ⟨?_, ?_, ?_⟩ <;> simp [hne]
    · exact ⟨rfl, rfl, rfl⟩

/-- The scoring pass never touches the flag sets or the statistics. -/
theorem findEdges_frame (rl : Nat → Nat) (l : List BAToverlap) :
    ∀ s : BogState, (findEdges rl l s).suspicious = s.suspicious ∧
      (findEdges rl l s).singleton = s.singleton ∧
      (findEdges rl l s).spur = s.spur ∧
      (findEdges rl l s).errorLimit = s.errorLimit := by
  induction l with
  | nil => intro s; exact ⟨rfl, rfl, rfl, rfl⟩
  | cons o l ih =>
    intro s
    have h1 := scoreOverlapStep_frame rl s o
    have h2 := ih (scoreOverlapStep rl s o)
    exact ⟨h2.1.trans h1.1, h2.2.1.trans h1.2.1, h2.2.2.1.trans h1.2.2.1,
      h2.2.2.2.trans h1.2.2.2⟩

/-- The scoring pass leaves the per-read state of a read that is the A read
of no delivered overlap unchanged. -/
theorem findEdges_untouched (rl : Nat → Nat) (l : List BAToverlap) (r : Nat)
    (h : ∀ o ∈ l, o.a_iid ≠ r) :
    ∀ s : BogState, (findEdges rl l s).best r = s.best r ∧
      (findEdges rl l s).score5 r = s.score5 r ∧
      (findEdges rl l s).score3 r = s.score3 r := by
  induction l with
  | nil => intro s; exact ⟨rfl, rfl, rfl⟩
  | cons o l ih =>
    intro s
    have h1 := scoreOverlapStep_untouched rl s o r (h o (List.mem_cons_self o l))
    have h2 := ih (fun o' ho' => h o' (List.mem_cons_of_mem _ ho')) (scoreOverlapStep rl s o)
    exact ⟨h2.1.trans h1.1, h2.2.1.trans h1.2.1, h2.2.2.trans h1.2.2⟩

/-- Every edge retained by the scoring pass is the stored image of a
delivered overlap of its own A read, or no edge at all. -/
theorem findEdges_prov (rl : Nat → Nat) (L : List BAToverlap) :
    ∀ l : List BAToverlap, (∀ o ∈ l, o ∈ L) → ∀ (s : BogState) (r : Nat) (tp : Bool),
      (s.edgeAt r tp = BestEdgeOverlap.clear ∨
        ∃ o ∈ L, o.a_iid = r ∧ s.edgeAt r tp = BestEdgeOverlap.set o) →
      ((findEdges rl l s).edgeAt r tp = BestEdgeOverlap.clear ∨
        ∃ o ∈ L, o.a_iid = r ∧ (findEdges rl l s).edgeAt r tp = BestEdgeOverlap.set o) := by
  intro l
  induction l with
  | nil => intro _ s r tp hbase; exact hbase
  | cons o l ih =>
    intro hsub s r tp hbase
    refine ih (fun o' ho' => hsub o' (List.mem_cons_of_mem _ ho')) _ r tp ?_
    rcases scoreOverlapStep_edge_cases rl s o r tp with h | ⟨h, ha⟩
    · rw [h]
      exact hbase
    · exact Or.inr ⟨o, hsub o (List.mem_cons_self o l), ha, h⟩

/-- The statistics pass writes only the statistics fields. -/
theorem computeStats_frame (cfg : BogConfig) (numReads : Nat) (s : BogState) :
    (computeStats cfg numReads s).best = s.best ∧
    (computeStats cfg numReads s).score5 = s.score5 ∧
    (computeStats cfg numReads s).score3 = s.score3 ∧
    (computeStats cfg numReads s).suspicious = s.suspicious ∧
    (computeStats cfg numReads s).singleton = s.singleton ∧
    (computeStats cfg numReads s).spur = s.spur := by
  by_cases h : (retainedErates numReads s).length ≤ 1 <;>
    simp [computeStats, h]

/-- Each edge of the graph before the suspicious pass is the pre-filter edge
or cleared. -/
theorem presusp_edge_shrink (cfg : BogConfig) (s : BogState) (r : Nat) (tp : Bool) :
    (removeSpursPass cfg (removeLopsidedPass cfg (removeContainedDovetailsPass
      (removeHighErrorPass cfg s)))).edgeAt r tp = s.edgeAt r tp ∨
    (removeSpursPass cfg (removeLopsidedPass cfg (removeContainedDovetailsPass
      (removeHighErrorPass cfg s)))).edgeAt r tp = BestEdgeOverlap.clear :=
  shrink_trans (removeSpursPass_edge_cases _ _ _ _)
    (shrink_trans (removeLopsidedPass_edge_cases _ _ _ _)
      (shrink_trans (removeContainedDovetailsPass_edge_cases _ _ _)
        (removeHighErrorPass_edge_cases _ _ _ _)))

/-- C3: the best-edge query is total and never signals an error — every
retained edge is the stored image of a delivered overlap of that read, or the
zero edge; and a read appearing in no overlap retains the zero edge at both
ends and is neither contained nor suspicious. -/
theorem claim_C3 (cfg : BogConfig) (numReads : Nat) (readLen : Nat → Nat)
    (ovls : List BAToverlap) (r : Nat) (tp : Bool) :
    (getBestEdgeOverlap (buildGraph cfg numReads readLen ovls) r tp = BestEdgeOverlap.clear ∨
      ∃ o ∈ ovls, o.a_iid = r ∧
        getBestEdgeOverlap (buildGraph cfg numReads readLen ovls) r tp =
          BestEdgeOverlap.set o) ∧
    ((∀ o ∈ ovls, o.a_iid ≠ r ∧ o.b_iid ≠ r) →
      getBestEdgeOverlap (buildGraph cfg numReads readLen ovls) r tp =
        BestEdgeOverlap.clear ∧
      isContained (buildGraph cfg numReads readLen ovls) r = false ∧
      isSuspicious (buildGraph cfg numReads readLen ovls) r = false) := by
  have hCedge : ∀ r' tp', (computeStats cfg numReads
      (findEdges readLen ovls BogState.zero)).edgeAt r' tp' =
      (findEdges readLen ovls BogState.zero).edgeAt r' tp' := by
    intro r' tp'
    unfold BogState.edgeAt
    rw [(computeStats_frame cfg numReads _).1]
  constructor
  · rw [show buildGraph cfg numReads readLen ovls =
      filterSeq cfg (computeStats cfg numReads (findEdges readLen ovls BogState.zero))
      from rfl, getBestEdgeOverlap_edgeAt]
    rcases filterSeq_edge_shrink cfg
        (computeStats cfg numReads (findEdges readLen ovls BogState.zero)) r tp with h | h
    · rw [h, hCedge]
      exact findEdges_prov readLen ovls ovls (fun _ ho => ho) BogState.zero r tp
        (Or.inl (BogState.zero_edgeAt r tp))
    · exact Or.inl h
  · intro huntouched
    have hA : ∀ o ∈ ovls, o.a_iid ≠ r := fun o ho => (huntouched o ho).1
    have hbest : (findEdges readLen ovls BogState.zero).best r = BestOverlaps.zero :=
      (findEdges_untouched readLen ovls r hA _).1
    have hCbest : (computeStats cfg numReads
        (findEdges readLen ovls BogState.zero)).best r = BestOverlaps.zero := by
      rw [congrFun (computeStats_frame cfg numReads _).1 r, hbest]
    have hCedgeclear : ∀ tp', (computeStats cfg numReads
        (findEdges readLen ovls BogState.zero)).edgeAt r tp' = BestEdgeOverlap.clear := by
      intro tp'
      unfold BogState.edgeAt
      rw [hCbest]
      cases tp' <;> rfl
    refine ⟨?_, ?_, ?_⟩
    · rw [show buildGraph cfg numReads readLen ovls =
        filterSeq cfg (computeStats cfg numReads (findEdges readLen ovls BogState.zero))
        from rfl, getBestEdgeOverlap_edgeAt]
      rcases filterSeq_edge_shrink cfg
          (computeStats cfg numReads (findEdges readLen ovls BogState.zero)) r tp with h | h
      · rw [h, hCedgeclear]
      · exact h
    · show ((buildGraph cfg numReads readLen ovls).best r)._isC = false
      rw [show buildGraph cfg numReads readLen ovls =
        filterSeq cfg (computeStats cfg numReads (findEdges readLen ovls BogState.zero))
        from rfl, filterSeq_isC, hCbest]
      rfl
    · show (buildGraph cfg numReads readLen ovls).suspicious r = false
      have hg4edge : ∀ tp', (removeSpursPass cfg (removeLopsidedPass cfg
          (removeContainedDovetailsPass (removeHighErrorPass cfg
            (computeStats cfg numReads (findEdges readLen ovls BogState.zero)))))).edgeAt
            r tp' = BestEdgeOverlap.clear := by
        intro tp'
        rcases presusp_edge_shrink cfg
            (computeStats cfg numReads (findEdges readLen ovls BogState.zero)) r tp'
          with h | h
        · rw [h, hCedgeclear]
        · exact h
      have hnosusp : ¬ suspiciousEntry (removeSpursPass cfg (removeLopsidedPass cfg
          (removeContainedDovetailsPass (removeHighErrorPass cfg
            (computeStats cfg numReads (findEdges readLen ovls BogState.zero)))))) r := by
        intro hs
        unfold suspiciousEntry at hs
        rcases hs with ⟨hne, _⟩ | ⟨hne, _⟩ <;> exact hne (hg4edge _)
      have hg4susp : (removeSpursPass cfg (removeLopsidedPass cfg
          (removeContainedDovetailsPass (removeHighErrorPass cfg
            (computeStats cfg numReads (findEdges readLen ovls BogState.zero)))))).suspicious
            r = false := by
        rw [congrFun (removeSpursPass_frame _ _).2.2.2.1 r,
          congrFun (removeLopsidedPass_frame _ _).2.2.2.1 r,
          congrFun (removeContainedDovetailsPass_frame _).2.2.2.1 r,
          congrFun (removeHighErrorPass_frame _ _).2.2.2.1 r,
          congrFun (computeStats_frame cfg numReads _).2.2.2.1 r,
          congrFun (findEdges_frame readLen ovls BogState.zero).1 r]
        rfl
      show (removeSuspiciousPass cfg (removeSpursPass cfg (removeLopsidedPass cfg
        (removeContainedDovetailsPass (removeHighErrorPass cfg
          (computeStats cfg numReads (findEdges readLen ovls BogState.zero))))))).suspicious
          r = false
      rw [removeSuspiciousPass_suspicious]
      split_ifs
      · rw [hg4susp]
        simp [hnosusp]
      · exact hg4susp

/-- Witness for C3 on the concrete graph `exGraph`: read 1 retains a stored
overlap image, and read 3 (absent from the input) retains nothing and has no
flags. -/
theorem claim_C3_witness :
    (getBestEdgeOverlap exGraph 1 true = BestEdgeOverlap.clear ∨
      ∃ o ∈ [exOlapAB], o.a_iid = 1 ∧
        getBestEdgeOverlap exGraph 1 true = BestEdgeOverlap.set o) ∧
    ((∀ o ∈ [exOlapAB], o.a_iid ≠ 3 ∧ o.b_iid ≠ 3) ∧
      getBestEdgeOverlap exGraph 3 false = BestEdgeOverlap.clear ∧
      isContained exGraph 3 = false ∧
      isSuspicious exGraph 3 = false) := by
  constructor
  · exact (claim_C3 exCfgOff 4 exReadLen [exOlapAB] 1 true).1
  · refine ⟨by decide, ?_⟩
    exact (claim_C3 exCfgOff 4 exReadLen [exOlapAB] 3 false).2 (by decide)

/-- The cleared edge stores error rate zero. -/
theorem erate_clear : BestEdgeOverlap.clear.erate = 0 := by
  norm_num [BestEdgeOverlap.erate, BestEdgeOverlap.clear, AS_OVS_decodeEvalue]

/-- C5: with the high-error filter enabled (and a valid nonnegative cutoff)
no retained best edge of the constructed graph stores an error rate above the
configured `erateGraph` cutoff; with the filter disabled, a sole candidate
overlap above the cutoff is retained with its high error rate. -/
theorem claim_C5 :
    (∀ (cfg : BogConfig) (numReads : Nat) (readLen : Nat → Nat) (ovls : List BAToverlap)
      (r : Nat) (tp : Bool), 0 ≤ cfg.erateGraph → cfg.filterHighError = true →
      (getBestEdgeOverlap (buildGraph cfg numReads readLen ovls) r tp).erate ≤
        cfg.erateGraph) ∧
    (exCfgOff.filterHighError = false ∧
      exCfgOff.erateGraph < (getBestEdgeOverlap exGraph 1 true).erate) := by
  constructor
  · intro cfg numReads readLen ovls r tp h0 hf
    rw [show buildGraph cfg numReads readLen ovls =
      filterSeq cfg (computeStats cfg numReads (findEdges readLen ovls BogState.zero))
      from rfl, getBestEdgeOverlap_edgeAt]
    rcases filterSeq_shrink_he cfg
        (computeStats cfg numReads (findEdges readLen ovls BogState.zero)) r tp with h | h
    · rw [h, removeHighErrorPass_edgeAt, if_pos hf]
      unfold heClear
      split
      · rw [erate_clear]
        exact h0
      · next hbad =>
        unfold edgeTooErroneous at hbad
        push_neg at hbad
        exact hbad.2
    · rw [h, erate_clear]
      exact h0
  · refine ⟨rfl, ?_⟩
    have hedge : getBestEdgeOverlap exGraph 1 true =
        { _id := 2, _e3p := false, _ahang := 5, _bhang := 7, _evalue := 3000 } := by decide
    rw [hedge]
    norm_num [BestEdgeOverlap.erate, AS_OVS_decodeEvalue, exCfgOff, AS_MAX_EVALUE_BITS]

/-- Witness for C5 with the high-error filter enabled on the concrete input. -/
theorem claim_C5_witness :
    0 ≤ exCfgHE.erateGraph ∧ exCfgHE.filterHighError = true ∧
    (getBestEdgeOverlap (buildGraph exCfgHE 4 exReadLen [exOlapAB]) 1 true).erate ≤
      exCfgHE.erateGraph := by
  have h0 : 0 ≤ exCfgHE.erateGraph := by
    norm_num [exCfgHE, exCfgOff]
  refine ⟨h0, rfl, ?_⟩
  exact claim_C5.1 exCfgHE 4 exReadLen [exOlapAB] 1 true h0 rfl
